/-
  Verification of the logvault-python client library core
  (src/logvault/client.py, src/logvault/exceptions.py).

  The Python code is shallowly embedded: Python values are modelled by
  `PyVal`, `json.dumps` by `dumps`, the action regex by `actionOk`,
  the sync `Client` pipeline (with its urllib3 Retry adapter) by
  `Client.log` / `Client.list_events`, and the `AsyncClient` retry loop by
  `AsyncClient.log` / `AsyncClient.list_events` / `AsyncClient.search_events`.
  The network is abstracted as a function `outcomes : Nat → Outcome`
  giving the result the transport would observe on the i-th attempt.
-/
import Mathlib

namespace LogVault

/-- The error taxonomy of src/logvault/exceptions.py.  `RateLimitError`
carries an optional retry-after hint, `APIError` an optional status code,
as in the Python constructors. -/
inductive LVError where
  | AuthenticationError (msg : String)
  | RateLimitError (msg : String) (retry_after : Option Nat)
  | ValidationError (msg : String)
  | APIError (msg : String) (status_code : Option Nat)
  deriving Repr, DecidableEq

/-- What the transport observes on one request attempt: an HTTP response
(status code and decoded body, the body being the pass-through result
envelope), or a network-level exception whose class name is `category`
(timeout, connection error, ...). -/
inductive Outcome where
  | status (code : Nat) (body : String)
  | netError (category : String)
  deriving Repr, DecidableEq

/-- Python values, as far as the payload builder needs them.  `noneV` is
Python `None`.  `obj` stands for any value `json.dumps` cannot serialize
(a set, a custom class instance, ...); circular structures, the other
source of serialization failure, cannot be built in an inductive type, so
`obj` covers every non-serializable input.  Floats are omitted: no claim
needs them. -/
inductive PyVal where
  | noneV
  | bool (b : Bool)
  | int (n : Int)
  | str (s : String)
  | list (xs : List PyVal)
  | dict (kvs : List (String × PyVal))
  | obj (name : String)
  deriving Repr

/-- Lowercase hex digit, as Python's `%x` formatting uses. -/
def hexDigit (n : Nat) : Char :=
  if n < 10 then Char.ofNat (48 + n) else Char.ofNat (87 + n)

/-- Four lowercase hex digits of `n < 0x10000`, as Python's `\uXXXX`. -/
def hex4 (n : Nat) : List Char :=
  [hexDigit (n / 4096 % 16), hexDigit (n / 256 % 16),
   hexDigit (n / 16 % 16), hexDigit (n % 16)]

/-- Python `json.dumps` escaping of one character inside a string literal
(default `ensure_ascii=True`): `"` and `\` and the named control escapes,
`\uXXXX` for other controls and all non-ASCII (printable ASCII is
0x20..0x7e), surrogate pairs above 0xFFFF. -/
def escChar (c : Char) : List Char :=
  if c = '"' then ['\\', '"']
  else if c = '\\' then ['\\', '\\']
  else if c = '\n' then ['\\', 'n']
  else if c = '\t' then ['\\', 't']
  else if c = '\r' then ['\\', 'r']
  else if c.toNat = 8 then ['\\', 'b']
  else if c.toNat = 12 then ['\\', 'f']
  else if c.toNat < 32 then '\\' :: 'u' :: hex4 c.toNat
  else if c.toNat < 127 then [c]
  else if c.toNat < 65536 then '\\' :: 'u' :: hex4 c.toNat
  else
    ('\\' :: 'u' :: hex4 (55296 + (c.toNat - 65536) / 1024)) ++
    ('\\' :: 'u' :: hex4 (56320 + (c.toNat - 65536) % 1024))

/-- Escape a whole string as `json.dumps` does inside the quotes. -/
def escString (s : String) : String :=
  String.mk (List.flatten (s.data.map escChar))

/-- Join already-serialized items with Python's default item separator. -/
def joinComma : List String → String
  | [] => ""
  | [s] => s
  | s :: ss => s ++ ", " ++ joinComma ss

mutual

/-- Python `json.dumps` with default arguments (separators `", "` and
`": "`, `ensure_ascii=True`).  Returns `none` exactly when Python raises
`TypeError` (a non-serializable object somewhere in the value). -/
def dumps : PyVal → Option String
  | .obj _ => Option.none
  | .noneV => some "null"
  | .bool true => some "true"
  | .bool false => some "false"
  | .int n => some (toString n)
  | .str s => some ("\"" ++ escString s ++ "\"")
  | .list xs =>
    match dumpsSeq xs with
    | Option.none => Option.none
    | some parts => some ("[" ++ joinComma parts ++ "]")
  | .dict kvs =>
    match dumpsKvs kvs with
    | Option.none => Option.none
    | some parts => some ("\x7b" ++ joinComma parts ++ "\x7d")

/-- Serialize every element of a JSON array. -/
def dumpsSeq : List PyVal → Option (List String)
  | [] => some []
  | v :: vs =>
    match dumps v, dumpsSeq vs with
    | some s, some ss => some (s :: ss)
    | _, _ => Option.none

/-- Serialize every `key: value` item of a JSON object. -/
def dumpsKvs : List (String × PyVal) → Option (List String)
  | [] => some []
  | (k, v) :: kvs =>
    match dumps v, dumpsKvs kvs with
    | some s, some ss => some (("\"" ++ escString k ++ "\": " ++ s) :: ss)
    | _, _ => Option.none

end

end LogVault

namespace LogVault

/-- The character class `[a-z0-9_]` under Python's `re.IGNORECASE` with
Unicode (str) patterns.  Besides ASCII letters (either case), digits and
underscore, CPython's case-insensitive range matching also accepts exactly
U+0130, U+0131, U+017F and U+212A, whose simple case mappings land in
`a-z`. -/
def pyClassChar (c : Char) : Bool :=
  (('a' ≤ c ∧ c ≤ 'z') ∨ ('A' ≤ c ∧ c ≤ 'Z') ∨ ('0' ≤ c ∧ c ≤ '9') ∨
    c = '_' ∨ c.toNat = 304 ∨ c.toNat = 305 ∨ c.toNat = 383 ∨ c.toNat = 8490)

/-- Split a character list at every `'.'` (the only separator the action
regex uses); mirrors how `^seg(\.seg)+$` decomposes its subject, since the
segment class never matches `'.'`. -/
def splitDots : List Char → List (List Char)
  | [] => [[]]
  | c :: cs =>
    if c = '.' then [] :: splitDots cs
    else
      match splitDots cs with
      | [] => [[c]]
      | p :: ps => (c :: p) :: ps

/-- Core match of `ACTION_REGEX` without the `$` subtlety: the subject is
two or more dot-separated segments, each a nonempty run of class
characters. -/
def actionCore (l : List Char) : Bool :=
  let ps := splitDots l
  decide (2 ≤ ps.length) && ps.all (fun p => !p.isEmpty && p.all pyClassChar)

/-- Truthiness of `ACTION_REGEX.match(s)` for
`ACTION_REGEX = re.compile(r"^[a-z0-9_]+(\.[a-z0-9_]+)+$", re.IGNORECASE)`.
Python's `$` (without `re.MULTILINE`) asserts at the end of the subject or
just before one final newline, so a single trailing `'\n'` is tolerated. -/
def actionOk (s : String) : Bool :=
  actionCore s.data ||
    (match s.data.getLast? with
     | some c => c = '\n' && actionCore s.data.dropLast
     | Option.none => false)

/-- Dot-separated concatenation of segments (spec-side description of the
action grammar). -/
def joinDots : List (List Char) → List Char
  | [] => []
  | [p] => p
  | p :: ps => p ++ '.' :: joinDots ps

/-- The action grammar exactly as the spec words it: two or more
dot-separated segments, each a nonempty run of `[a-z0-9_]`
case-insensitively — read as ASCII letters, digits and underscore — with
no other characters tolerated. -/
def specClassChar (c : Char) : Bool :=
  (('a' ≤ c ∧ c ≤ 'z') ∨ ('A' ≤ c ∧ c ≤ 'Z') ∨ ('0' ≤ c ∧ c ≤ '9') ∨ c = '_')

/-- Spec-side acceptor for C3, following the spec's words (for comparison
with the source-side `actionOk`). -/
def specAccepts (s : String) : Bool :=
  let ps := splitDots s.data
  decide (2 ≤ ps.length) && ps.all (fun p => !p.isEmpty && p.all specClassChar)

/-- The amended grammar `actionOk` is proved to recognise: some list of
two or more segments, each a nonempty run of `pyClassChar` characters,
joined by dots, with at most one trailing newline. -/
def PyActionSpec (l : List Char) : Prop :=
  ∃ parts : List (List Char), 2 ≤ parts.length ∧
    (∀ p ∈ parts, p ≠ [] ∧ ∀ c ∈ p, pyClassChar c = true) ∧
    (l = joinDots parts ∨ l = joinDots parts ++ ['\n'])

end LogVault

namespace LogVault

/-- Python `None`-or-string arguments as payload values. -/
def optStr : Option String → PyVal
  | Option.none => .noneV
  | some s => .str s

/-- Python `metadata or {}` (client.py line 87): `None` and an empty dict
are falsy, so both are replaced by a fresh empty dict; any non-empty dict
is kept. -/
def pyOrEmptyDict : Option PyVal → PyVal
  | Option.none => .dict []
  | some (.dict []) => .dict []
  | some v => v

/-- What one of either client's `log` calls does, observably: raise one of
the typed errors, or return a value (`none` models Python returning
`None`, `some body` the decoded 2xx response body). -/
inductive LogResult where
  | raised (e : LVError)
  | returned (v : Option String)
  deriving Repr, DecidableEq

/-- One issued HTTP request, as far as the claims need it: the
`Authorization` header value and the serialized body. -/
structure Request where
  bearer : String
  body : String
  deriving Repr, DecidableEq

/-- The payload dict literal `Client.log` builds (client.py lines 83-91),
in dict-literal key order.  `level : Option String` models the Python
default parameter `level="info"`: an omitted argument equals passing
`"info"`.  `tsIso` is `timestamp.isoformat()` for a passed timestamp, and
`nowIso` stands for `datetime.utcnow().isoformat()`, the ISO-8601 text of
the current UTC instant, used when `timestamp` is absent. -/
def Client.buildPayload (action : String) (user_id resource : Option String)
    (metadata : Option PyVal) (level : Option String)
    (message : Option String) (tsIso : Option String) (nowIso : String) : PyVal :=
  .dict [("action", .str action),
         ("user_id", optStr user_id),
         ("resource", optStr resource),
         ("metadata", pyOrEmptyDict metadata),
         ("level", .str (level.getD "info")),
         ("message", optStr message),
         ("timestamp", .str (tsIso.getD nowIso))]

/-- The `status_forcelist` of the sync client's Retry strategy
(client.py line 61). -/
def retryStatus (code : Nat) : Bool :=
  (code = 429 ∨ code = 500 ∨ code = 502 ∨ code = 503 ∨ code = 504)

/-- What `session.post` ultimately produces through the retry adapter: a
response, or a `requests` exception whose class name is `category`. -/
inductive TransportResult where
  | resp (code : Nat) (body : String)
  | exc (category : String)
  deriving Repr, DecidableEq

/-- The sync client's transport for `POST /v1/events`: `requests` with
urllib3 `Retry(total=R, backoff_factor=1, status_forcelist=[429, 500,
502, 503, 504], allowed_methods=["POST"])` (client.py lines 57-66).
Modelled from the documented urllib3 semantics: `total=R` permits `R`
retries after the initial request; a forcelist status with no budget left
raises (default `raise_on_status`), surfacing as requests' `RetryError`; a
network-level error with no budget left surfaces as the requests exception
for the final failure, whose class name the model carries through in the
category.  Returns the final transport outcome and how many requests were
issued from attempt `i` on. -/
def syncSend (R : Nat) (outcomes : Nat → Outcome) (i : Nat) : TransportResult × Nat :=
  match outcomes i with
  | .status code body =>
    if _h : retryStatus code = true ∧ i < R then
      let (r, n) := syncSend R outcomes (i + 1)
      (r, n + 1)
    else if retryStatus code then (.exc "RetryError", 1)
    else (.resp code body, 1)
  | .netError cat =>
    if _h : i < R then
      let (r, n) := syncSend R outcomes (i + 1)
      (r, n + 1)
    else (.exc cat, 1)
termination_by R - i

/-- Sync `Client.log` (client.py lines 68-123): validate the action, build and
serialize the payload (serialization failure is swallowed and returns
`None`; an over-1MB payload raises `ValidationError`), then POST through
the retrying session and classify the response: 401 →
`AuthenticationError`, 422 → `ValidationError` carrying the response
text, any other 4xx/5xx → `raise_for_status`'s `HTTPError`, which — like
every `requests` exception — is wrapped into
`APIError("LogVault Connection Error: " + class name)`; 2xx returns the
decoded body.  Also returns the list of issued requests. -/
def Client.log (api_key action : String) (user_id resource : Option String)
    (metadata : Option PyVal) (level : Option String) (message : Option String)
    (tsIso : Option String) (nowIso : String)
    (max_retries : Nat) (outcomes : Nat → Outcome) : LogResult × List Request :=
  if actionOk action = false then
    (.raised (.ValidationError
      ("Invalid action format '" ++ action ++ "'. Expected 'domain.event'")), [])
  else
    match dumps (Client.buildPayload action user_id resource metadata level
        message tsIso nowIso) with
    | Option.none => (.returned Option.none, [])
    | some json_payload =>
      if json_payload.length > 1024 * 1024 then
        (.raised (.ValidationError "Payload size exceeds 1MB"), [])
      else
        let (tr, n) := syncSend max_retries outcomes 0
        let reqs : List Request :=
          List.replicate n { bearer := "Bearer " ++ api_key, body := json_payload }
        match tr with
        | .exc cat =>
          (.raised (.APIError ("LogVault Connection Error: " ++ cat) Option.none), reqs)
        | .resp code rbody =>
          if code = 401 then (.raised (.AuthenticationError "Invalid API key"), reqs)
          else if code = 422 then
            (.raised (.ValidationError ("Validation failed: " ++ rbody)), reqs)
          else if 400 ≤ code ∧ code < 600 then
            (.raised (.APIError "LogVault Connection Error: HTTPError" Option.none), reqs)
          else (.returned (some rbody), reqs)

/-- The payload dict `AsyncClient.log` builds (client.py lines 294-295):
`{"action": action, **kwargs}`, then `metadata` is set to `{}` only if the
key is absent (appended last, per dict insertion order).  Python forbids
`action` among the keyword arguments, so `kwargs` is assumed not to
contain it. -/
def AsyncClient.buildPayload (action : String)
    (kwargs : List (String × PyVal)) : List (String × PyVal) :=
  let payload := ("action", PyVal.str action) :: kwargs
  if (payload.lookup "metadata").isSome then payload
  else payload ++ [("metadata", PyVal.dict [])]

/-- The async retry loop of `AsyncClient.log` (client.py lines 306-335),
started at a given attempt counter.  200/201 return the decoded body; 401
and 422 raise immediately; a 429-or-5xx status with `attempt <
max_retries` raises an `aiohttp.ClientError` that the loop's own handler
catches, increments the counter (staying ≤ `max_retries`, so the
connection-failed branch is unreachable from this path) and retries;
otherwise the status raises `APIError("HTTP " + status)`.  A
network-level error increments the counter and retries, or — once the
counter exceeds `max_retries` — raises the connection-failed `APIError`.
Returns the result and the number of requests issued from this attempt
on. -/
def AsyncClient.attemptLoop (max_retries : Nat) (outcomes : Nat → Outcome)
    (attempt : Nat) : LogResult × Nat :=
  match outcomes attempt with
  | .status code rbody =>
    if code = 200 ∨ code = 201 then (.returned (some rbody), 1)
    else if code = 401 then (.raised (.AuthenticationError "Invalid API key"), 1)
    else if code = 422 then
      (.raised (.ValidationError ("Validation failed: " ++ rbody)), 1)
    else if _h : attempt < max_retries ∧ (code = 429 ∨ 500 ≤ code) then
      let (r, n) := AsyncClient.attemptLoop max_retries outcomes (attempt + 1)
      (r, n + 1)
    else (.raised (.APIError ("HTTP " ++ toString code) Option.none), 1)
  | .netError cat =>
    if attempt + 1 > max_retries then
      (.raised (.APIError ("Connection failed after " ++ toString max_retries ++
        " retries: " ++ cat) Option.none), 1)
    else
      let (r, n) := AsyncClient.attemptLoop max_retries outcomes (attempt + 1)
      (r, n + 1)
termination_by max_retries - attempt
decreasing_by
  · omega
  · omega

/-- Async `AsyncClient.log` (client.py lines 285-335): validate the action,
build the payload with the `metadata` default, pre-check serializability
with `json.dumps` (failure is swallowed and returns `None`; there is no
size check here), then run the retry loop.  `aiohttp` serializes the
`json=payload` argument with `json.dumps`, so each issued request carries
the serialized payload as its body. -/
def AsyncClient.log (api_key action : String) (kwargs : List (String × PyVal))
    (max_retries : Nat) (outcomes : Nat → Outcome) : LogResult × List Request :=
  if actionOk action = false then
    (.raised (.ValidationError ("Invalid action format '" ++ action ++ "'")), [])
  else
    match dumps (PyVal.dict (AsyncClient.buildPayload action kwargs)) with
    | Option.none => (.returned Option.none, [])
    | some body =>
      let (r, n) := AsyncClient.attemptLoop max_retries outcomes 0
      (r, List.replicate n { bearer := "Bearer " ++ api_key, body := body })

end LogVault

namespace LogVault

/-- Result of one of the query operations: a typed error, an uncaught
transport exception propagating raw (the async query paths have no
handler for `aiohttp` errors), or the decoded body. -/
inductive QueryResult where
  | raised (e : LVError)
  | rawTransportError (category : String)
  | returned (body : String)
  deriving Repr, DecidableEq

/-- The query parameters `Client.list_events` sends (client.py lines
144-151): `page` as given, `page_size` clamped by `min(page_size, 100)`,
then `user_id` and `action` only when truthy (a present-but-empty string
is falsy in Python and is not sent). -/
def Client.list_events_params (page page_size : Int)
    (user_id action : Option String) : List (String × PyVal) :=
  let params := [("page", PyVal.int page), ("page_size", PyVal.int (min page_size 100))]
  let params := match user_id with
    | some u => if u ≠ "" then params ++ [("user_id", PyVal.str u)] else params
    | Option.none => params
  match action with
  | some a => if a ≠ "" then params ++ [("action", PyVal.str a)] else params
  | Option.none => params

/-- Response handling of `Client.list_events` (client.py lines 153-167):
401 → `AuthenticationError`; any other 4xx/5xx → `raise_for_status`'s
`HTTPError`, wrapped like every `requests` exception into
`APIError("LogVault Connection Error: " + class name)`; 2xx → decoded
body.  GETs are outside the Retry adapter's `allowed_methods`, so a
forcelist status is not retried here; a network-level exception likewise
surfaces (possibly after connect-phase retries) and is wrapped the same
way. -/
def Client.list_events (outcome : Outcome) : QueryResult :=
  match outcome with
  | .netError cat =>
    .raised (.APIError ("LogVault Connection Error: " ++ cat) Option.none)
  | .status code body =>
    if code = 401 then .raised (.AuthenticationError "Invalid API key")
    else if 400 ≤ code ∧ code < 600 then
      .raised (.APIError "LogVault Connection Error: HTTPError" Option.none)
    else .returned body

/-- The query parameters `AsyncClient.list_events` sends (client.py lines
350-354): identical construction to the sync client's. -/
def AsyncClient.list_events_params (page page_size : Int)
    (user_id action : Option String) : List (String × PyVal) :=
  let params := [("page", PyVal.int page), ("page_size", PyVal.int (min page_size 100))]
  let params := match user_id with
    | some u => if u ≠ "" then params ++ [("user_id", PyVal.str u)] else params
    | Option.none => params
  match action with
  | some a => if a ≠ "" then params ++ [("action", PyVal.str a)] else params
  | Option.none => params

/-- Response handling shared by `AsyncClient.list_events` (client.py lines
356-361) and `AsyncClient.search_events` (lines 373-381): a single GET
with no retry loop; 401 → `AuthenticationError`, any other non-200 →
`APIError("HTTP " + status)`, 200 → decoded body; `aiohttp` exceptions
propagate raw. -/
def AsyncClient.queryClassify (outcome : Outcome) : QueryResult :=
  match outcome with
  | .netError cat => .rawTransportError cat
  | .status code body =>
    if code = 401 then .raised (.AuthenticationError "Invalid API key")
    else if code ≠ 200 then .raised (.APIError ("HTTP " ++ toString code) Option.none)
    else .returned body

/-- Async `AsyncClient.list_events`: one request, classified by
`queryClassify`.  Returns the result and the number of requests issued. -/
def AsyncClient.list_events (outcome : Outcome) : QueryResult × Nat :=
  (AsyncClient.queryClassify outcome, 1)

/-- Async `AsyncClient.search_events` (client.py lines 363-381): a query shorter
than 2 characters raises `ValidationError` locally, before any request;
otherwise one GET, classified by `queryClassify`. -/
def AsyncClient.search_events (query : String) (outcome : Outcome) :
    QueryResult × Nat :=
  if query.length < 2 then
    (.raised (.ValidationError "Query must be at least 2 characters"), 0)
  else (AsyncClient.queryClassify outcome, 1)

end LogVault

namespace LogVault

theorem splitDots_ne_nil (l : List Char) : splitDots l ≠ [] := by
  cases l with
  | nil => simp [splitDots]
  | cons c cs =>
    simp only [splitDots]
    split
    · simp
    · split <;> simp_all

theorem joinDots_splitDots (l : List Char) : joinDots (splitDots l) = l := by
  induction l with
  | nil => rfl
  | cons c cs ih =>
    simp only [splitDots]
    split
    · rename_i hc
      obtain ⟨p, ps, hps⟩ := List.exists_cons_of_ne_nil (splitDots_ne_nil cs)
      rw [hps]
      rw [hps] at ih
      simp only [joinDots, List.nil_append]
      rw [ih, hc]
    · rename_i hc
      cases hps : splitDots cs with
      | nil => exact absurd hps (splitDots_ne_nil cs)
      | cons p ps =>
        rw [hps] at ih
        cases ps with
        | nil => simpa [joinDots] using congrArg (c :: ·) ih
        | cons q ps' => simpa [joinDots] using congrArg (c :: ·) ih

theorem splitDots_dotfree (p : List Char) (h : '.' ∉ p) : splitDots p = [p] := by
  induction p with
  | nil => rfl
  | cons c cs ih =>
    simp only [List.mem_cons, not_or] at h
    simp only [splitDots]
    rw [if_neg (fun hc => h.1 hc.symm), ih h.2]

theorem splitDots_append_dot (p : List Char) (l : List Char) (h : '.' ∉ p) :
    splitDots (p ++ '.' :: l) = p :: splitDots l := by
  induction p with
  | nil => simp [splitDots]
  | cons c cs ih =>
    simp only [List.mem_cons, not_or] at h
    simp only [List.cons_append, splitDots]
    rw [if_neg (fun hc => h.1 hc.symm)]
    simp only [List.append_eq] at ih ⊢
    rw [ih h.2]

theorem splitDots_joinDots (parts : List (List Char)) (hne : parts ≠ [])
    (hdot : ∀ p ∈ parts, '.' ∉ p) : splitDots (joinDots parts) = parts := by
  induction parts with
  | nil => exact absurd rfl hne
  | cons p ps ih =>
    cases ps with
    | nil =>
      simpa [joinDots] using splitDots_dotfree p (hdot p (by simp))
    | cons q ps' =>
      simp only [joinDots]
      rw [splitDots_append_dot p _ (hdot p (by simp))]
      rw [ih (by simp) (fun r hr => hdot r (List.mem_cons_of_mem p hr))]

theorem pyClassChar_dot_false : pyClassChar '.' = false := by decide

theorem isEmpty_false_iff (l : List Char) : l.isEmpty = false ↔ l ≠ [] := by
  cases l <;> simp

theorem actionCore_iff (l : List Char) :
    actionCore l = true ↔
      ∃ parts : List (List Char), 2 ≤ parts.length ∧
        (∀ p ∈ parts, p ≠ [] ∧ ∀ c ∈ p, pyClassChar c = true) ∧
        l = joinDots parts := by
  constructor
  · intro h
    simp only [actionCore, Bool.and_eq_true, decide_eq_true_eq, List.all_eq_true,
      Bool.not_eq_true', isEmpty_false_iff] at h
    refine ⟨splitDots l, h.1, ?_, (joinDots_splitDots l).symm⟩
    intro p hp
    exact ⟨(h.2 p hp).1, (h.2 p hp).2⟩
  · rintro ⟨parts, hlen, hcls, rfl⟩
    have hdot : ∀ p ∈ parts, '.' ∉ p := by
      intro p hp hc
      have := (hcls p hp).2 '.' hc
      simp [pyClassChar_dot_false] at this
    have hne : parts ≠ [] := by
      intro h
      rw [h] at hlen
      simp at hlen
    simp only [actionCore, Bool.and_eq_true, decide_eq_true_eq, List.all_eq_true,
      Bool.not_eq_true', isEmpty_false_iff]
    rw [splitDots_joinDots parts hne hdot]
    exact ⟨hlen, fun p hp => ⟨(hcls p hp).1, (hcls p hp).2⟩⟩

end LogVault

namespace LogVault

theorem actionOk_iff_aux (s : String) :
    actionOk s = true ↔
      (actionCore s.data = true ∨
        ∃ l', s.data = l' ++ ['\n'] ∧ actionCore l' = true) := by
  simp only [actionOk, Bool.or_eq_true]
  constructor
  · rintro (h | h)
    · exact Or.inl h
    · right
      cases hl : s.data.getLast? with
      | none => rw [hl] at h; simp at h
      | some c =>
        rw [hl] at h
        simp only [Bool.and_eq_true, decide_eq_true_eq] at h
        have hne : s.data ≠ [] := by
          intro hnil
          rw [hnil] at hl
          simp at hl
        refine ⟨s.data.dropLast, ?_, h.2⟩
        have := List.dropLast_append_getLast hne
        rw [List.getLast?_eq_getLast s.data hne] at hl
        have hc : s.data.getLast hne = c := by injection hl
        rw [← h.1, ← hc, this]
  · rintro (h | ⟨l', hl, hc⟩)
    · exact Or.inl h
    · right
      rw [hl, List.getLast?_concat, List.dropLast_concat]
      simp [hc]

theorem actionOk_iff (s : String) : actionOk s = true ↔ PyActionSpec s.data := by
  rw [actionOk_iff_aux]
  unfold PyActionSpec
  constructor
  · rintro (h | ⟨l', rfl', hc⟩)
    · obtain ⟨parts, h1, h2, h3⟩ := (actionCore_iff s.data).mp h
      exact ⟨parts, h1, h2, Or.inl h3⟩
    · obtain ⟨parts, h1, h2, h3⟩ := (actionCore_iff l').mp hc
      exact ⟨parts, h1, h2, Or.inr (by rw [rfl', h3])⟩
  · rintro ⟨parts, h1, h2, (h3 | h3)⟩
    · exact Or.inl ((actionCore_iff s.data).mpr ⟨parts, h1, h2, h3⟩)
    · exact Or.inr ⟨joinDots parts, h3, (actionCore_iff _).mpr ⟨parts, h1, h2, rfl⟩⟩

end LogVault

namespace LogVault

/-- C3 (amended): the action validator `ACTION_REGEX.match`, run in both
executors before any network call, accepts exactly the strings made of
two or more dot-separated segments of one-or-more `[a-z0-9_]`-class
characters — where Python's case-insensitive class means ASCII letters of
either case, digits, underscore, and the four case-folding characters
U+0130, U+0131, U+017F, U+212A — optionally followed by one trailing
newline (Python's `$`); every other string is rejected, and on rejection
both executors raise `ValidationError` without issuing any request. -/
theorem c3_action_validator_amended :
    (∀ s : String, actionOk s = true ↔ PyActionSpec s.data) ∧
    (∀ (api_key action : String) (user_id resource : Option String)
        (metadata : Option PyVal) (level message tsIso : Option String)
        (nowIso : String) (R : Nat) (o : Nat → Outcome),
      actionOk action = false →
        Client.log api_key action user_id resource metadata level message
            tsIso nowIso R o =
          (.raised (.ValidationError ("Invalid action format '" ++ action ++
            "'. Expected 'domain.event'")), [])) ∧
    (∀ (api_key action : String) (kwargs : List (String × PyVal))
        (R : Nat) (o : Nat → Outcome),
      actionOk action = false →
        AsyncClient.log api_key action kwargs R o =
          (.raised (.ValidationError ("Invalid action format '" ++ action ++ "'")), [])) := by
  refine ⟨actionOk_iff, ?_, ?_⟩
  · intro api_key action user_id resource metadata level message tsIso nowIso R o h
    simp [Client.log, h]
  · intro api_key action kwargs R o h
    simp [AsyncClient.log, h]

/-- C3 witness: the hypotheses of the amended theorem discharged at
concrete inputs — the malformed action `"a@b.c"` makes the async executor
raise `ValidationError` with no request sent. -/
theorem c3_witness :
    AsyncClient.log "lv_test_k" "a@b.c" [] 3 (fun _ => Outcome.status 200 "ok") =
      (.raised (.ValidationError ("Invalid action format '" ++ "a@b.c" ++ "'")), []) :=
  c3_action_validator_amended.2.2 "lv_test_k" "a@b.c" [] 3
    (fun _ => Outcome.status 200 "ok") (by decide)

/-- C3 counterexample: the claim as stated is false — `ACTION_REGEX.match`
also accepts `"a.b\n"` (Python's `$` matches before one final newline) and
`"ſ.s"` (U+017F case-folds into `[a-z]` under `re.IGNORECASE`), although
neither is made of segments of `[a-z0-9_]` characters in either case; the
spec-side acceptor `specAccepts` rejects both. -/
theorem c3_counterexample :
    actionOk "a.b\n" = true ∧ specAccepts "a.b\n" = false ∧
    actionOk "ſ.s" = true ∧ specAccepts "ſ.s" = false := by
  refine ⟨by decide, by decide, by decide, by decide⟩

end LogVault

namespace LogVault

/-- An outcome the async retry loop treats as transient: status 429 or
5xx, or any network-level exception. -/
def transientOutcome : Outcome → Prop
  | .status code _ => code = 429 ∨ 500 ≤ code
  | .netError _ => True

/-- An outcome the sync Retry adapter retries for a POST: a forcelist
status, or any network-level exception. -/
def retryableOutcome : Outcome → Prop
  | .status code _ => retryStatus code = true
  | .netError _ => True

theorem attemptLoop_count_le (R : Nat) (o : Nat → Outcome) :
    ∀ a, a ≤ R → (AsyncClient.attemptLoop R o a).2 ≤ R + 1 - a := by
  refine AsyncClient.attemptLoop.induct R o
    (fun a => a ≤ R → (AsyncClient.attemptLoop R o a).2 ≤ R + 1 - a)
    ?_ ?_ ?_ ?_ ?_ ?_ ?_
  · intro x code body ho h ha
    rw [AsyncClient.attemptLoop, ho]
    simp only [h, if_pos]
    omega
  · intro x body ho h1 ha
    rw [AsyncClient.attemptLoop, ho]
    norm_num
    omega
  · intro x body ho h1 h2 ha
    rw [AsyncClient.attemptLoop, ho]
    norm_num
    omega
  · intro x code body ho h1 h2 h3 h4 r n hrec ih ha
    rw [AsyncClient.attemptLoop, ho]
    simp only [h1, h2, h3, if_false, dif_pos h4, hrec]
    have := ih (by omega)
    rw [hrec] at this
    have hn : n ≤ R + 1 - (x + 1) := this
    show n + 1 ≤ R + 1 - x
    omega
  · intro x code body ho h1 h2 h3 h4 ha
    rw [AsyncClient.attemptLoop, ho]
    simp only [h1, h2, h3, if_false, dif_neg h4]
    show (1 : Nat) ≤ R + 1 - x
    omega
  · intro x cat ho h ha
    rw [AsyncClient.attemptLoop, ho]
    simp only [if_pos h]
    omega
  · intro x cat ho h r n hrec ih ha
    rw [AsyncClient.attemptLoop, ho]
    simp only [if_neg h, hrec]
    have := ih (by omega)
    rw [hrec] at this
    have hn : n ≤ R + 1 - (x + 1) := this
    show n + 1 ≤ R + 1 - x
    omega

theorem attemptLoop_count_pos (R : Nat) (o : Nat → Outcome) :
    ∀ a, 1 ≤ (AsyncClient.attemptLoop R o a).2 := by
  refine AsyncClient.attemptLoop.induct R o
    (fun a => 1 ≤ (AsyncClient.attemptLoop R o a).2) ?_ ?_ ?_ ?_ ?_ ?_ ?_
  · intro x code body ho h
    rw [AsyncClient.attemptLoop, ho]
    simp [h]
  · intro x body ho h1
    rw [AsyncClient.attemptLoop, ho]
    norm_num
  · intro x body ho h1 h2
    rw [AsyncClient.attemptLoop, ho]
    norm_num
  · intro x code body ho h1 h2 h3 h4 r n hrec ih
    rw [AsyncClient.attemptLoop, ho]
    simp only [h1, h2, h3, if_false, dif_pos h4, hrec]
    simp [if_neg h1, if_neg h2, if_neg h3]
  · intro x code body ho h1 h2 h3 h4
    rw [AsyncClient.attemptLoop, ho]
    simp [if_neg h1, if_neg h2, if_neg h3, dif_neg h4]
  · intro x cat ho h
    rw [AsyncClient.attemptLoop, ho]
    simp [h]
  · intro x cat ho h r n hrec ih
    rw [AsyncClient.attemptLoop, ho]
    simp [if_neg h, hrec]

end LogVault

namespace LogVault

theorem attemptLoop_transient (R : Nat) (o : Nat → Outcome)
    (ht : ∀ i, transientOutcome (o i)) :
    ∀ a, a ≤ R → ∃ msg, AsyncClient.attemptLoop R o a =
      (.raised (.APIError msg Option.none), R + 1 - a) := by
  refine AsyncClient.attemptLoop.induct R o
    (fun a => a ≤ R → ∃ msg, AsyncClient.attemptLoop R o a =
      (.raised (.APIError msg Option.none), R + 1 - a)) ?_ ?_ ?_ ?_ ?_ ?_ ?_
  · intro x code body ho h ha
    have := ht x
    rw [ho] at this
    simp only [transientOutcome] at this
    omega
  · intro x body ho h1 ha
    have := ht x
    rw [ho] at this
    simp only [transientOutcome] at this
    omega
  · intro x body ho h1 h2 ha
    have := ht x
    rw [ho] at this
    simp only [transientOutcome] at this
    omega
  · intro x code body ho h1 h2 h3 h4 r n hrec ih ha
    obtain ⟨msg, hm⟩ := ih (by omega)
    rw [hrec] at hm
    obtain ⟨hr, hn⟩ := Prod.mk.injEq .. ▸ hm
    refine ⟨msg, ?_⟩
    rw [AsyncClient.attemptLoop, ho]
    simp only [h1, h2, h3, if_false, dif_pos h4, hrec]
    rw [hr]
    have : n + 1 = R + 1 - x := by omega
    rw [this]
  · intro x code body ho h1 h2 h3 h4 ha
    have htx := ht x
    rw [ho] at htx
    simp only [transientOutcome] at htx
    have hx : x = R := by
      rcases Decidable.em (x < R) with hlt | hge
      · exact absurd ⟨hlt, htx⟩ h4
      · omega
    refine ⟨"HTTP " ++ toString code, ?_⟩
    rw [AsyncClient.attemptLoop, ho]
    simp only [h1, h2, h3, if_false, dif_neg h4]
    have : R + 1 - x = 1 := by omega
    rw [this]
  · intro x cat ho h ha
    refine ⟨"Connection failed after " ++ toString R ++ " retries: " ++ cat, ?_⟩
    rw [AsyncClient.attemptLoop, ho]
    simp only [if_pos h]
    have : R + 1 - x = 1 := by omega
    rw [this]
  · intro x cat ho h r n hrec ih ha
    obtain ⟨msg, hm⟩ := ih (by omega)
    rw [hrec] at hm
    obtain ⟨hr, hn⟩ := Prod.mk.injEq .. ▸ hm
    refine ⟨msg, ?_⟩
    rw [AsyncClient.attemptLoop, ho]
    simp only [if_neg h, hrec]
    rw [hr]
    have : n + 1 = R + 1 - x := by omega
    rw [this]

end LogVault

namespace LogVault

theorem attemptLoop_all429 (R : Nat) (o : Nat → Outcome)
    (h429 : ∀ i, ∃ b, o i = .status 429 b) :
    ∀ a, a ≤ R → AsyncClient.attemptLoop R o a =
      (.raised (.APIError "HTTP 429" Option.none), R + 1 - a) := by
  refine AsyncClient.attemptLoop.induct R o
    (fun a => a ≤ R → AsyncClient.attemptLoop R o a =
      (.raised (.APIError "HTTP 429" Option.none), R + 1 - a)) ?_ ?_ ?_ ?_ ?_ ?_ ?_
  · intro x code body ho h ha
    obtain ⟨b, hb⟩ := h429 x
    rw [ho] at hb
    injection hb with hc _
    omega
  · intro x body ho h1 ha
    obtain ⟨b, hb⟩ := h429 x
    rw [ho] at hb
    injection hb with hc _
    omega
  · intro x body ho h1 h2 ha
    obtain ⟨b, hb⟩ := h429 x
    rw [ho] at hb
    injection hb with hc _
    omega
  · intro x code body ho h1 h2 h3 h4 r n hrec ih ha
    have hm := ih (by omega)
    rw [hrec] at hm
    obtain ⟨hr, hn⟩ := Prod.mk.injEq .. ▸ hm
    rw [AsyncClient.attemptLoop, ho]
    simp only [h1, h2, h3, if_false, dif_pos h4, hrec]
    rw [hr]
    have : n + 1 = R + 1 - x := by omega
    rw [this]
  · intro x code body ho h1 h2 h3 h4 ha
    obtain ⟨b, hb⟩ := h429 x
    rw [ho] at hb
    injection hb with hc _
    have hx : x = R := by
      rcases Decidable.em (x < R) with hlt | hge
      · exact absurd ⟨hlt, Or.inl hc⟩ h4
      · omega
    have h1' : R + 1 - x = 1 := by omega
    rw [AsyncClient.attemptLoop, ho]
    simp only [h1, h2, h3, if_false]
    rw [dif_neg h4, h1', hc]
    rfl
  · intro x cat ho h ha
    obtain ⟨b, hb⟩ := h429 x
    rw [ho] at hb
    exact absurd hb (by simp)
  · intro x cat ho h r n hrec ih ha
    obtain ⟨b, hb⟩ := h429 x
    rw [ho] at hb
    exact absurd hb (by simp)

theorem attemptLoop_allNetError (R : Nat) (o : Nat → Outcome)
    (cats : Nat → String) (hnet : ∀ i, o i = .netError (cats i)) :
    ∀ a, a ≤ R → AsyncClient.attemptLoop R o a =
      (.raised (.APIError ("Connection failed after " ++ toString R ++
        " retries: " ++ cats R) Option.none), R + 1 - a) := by
  refine AsyncClient.attemptLoop.induct R o
    (fun a => a ≤ R → AsyncClient.attemptLoop R o a =
      (.raised (.APIError ("Connection failed after " ++ toString R ++
        " retries: " ++ cats R) Option.none), R + 1 - a)) ?_ ?_ ?_ ?_ ?_ ?_ ?_
  · intro x code body ho h ha
    have hb := hnet x
    rw [ho] at hb
    exact absurd hb (by simp)
  · intro x body ho h1 ha
    have hb := hnet x
    rw [ho] at hb
    exact absurd hb (by simp)
  · intro x body ho h1 h2 ha
    have hb := hnet x
    rw [ho] at hb
    exact absurd hb (by simp)
  · intro x code body ho h1 h2 h3 h4 r n hrec ih ha
    have hb := hnet x
    rw [ho] at hb
    exact absurd hb (by simp)
  · intro x code body ho h1 h2 h3 h4 ha
    have hb := hnet x
    rw [ho] at hb
    exact absurd hb (by simp)
  · intro x cat ho h ha
    have hx : x = R := by omega
    have hb := hnet x
    rw [ho] at hb
    injection hb with hcat
    rw [AsyncClient.attemptLoop, ho]
    simp only [if_pos h]
    have h1' : R + 1 - x = 1 := by omega
    rw [h1', hcat, hx]
  · intro x cat ho h r n hrec ih ha
    have hm := ih (by omega)
    rw [hrec] at hm
    obtain ⟨hr, hn⟩ := Prod.mk.injEq .. ▸ hm
    rw [AsyncClient.attemptLoop, ho]
    simp only [if_neg h, hrec]
    rw [hr]
    have : n + 1 = R + 1 - x := by omega
    rw [this]

theorem attemptLoop_never_ratelimit (R : Nat) (o : Nat → Outcome) :
    ∀ a, ∀ (m : String) (ra : Option Nat),
      (AsyncClient.attemptLoop R o a).1 ≠ .raised (.RateLimitError m ra) := by
  refine AsyncClient.attemptLoop.induct R o
    (fun a => ∀ (m : String) (ra : Option Nat),
      (AsyncClient.attemptLoop R o a).1 ≠ .raised (.RateLimitError m ra))
    ?_ ?_ ?_ ?_ ?_ ?_ ?_
  · intro x code body ho h m ra
    rw [AsyncClient.attemptLoop, ho]
    simp [h]
  · intro x body ho h1 m ra
    rw [AsyncClient.attemptLoop, ho]
    norm_num
    exact fun hcon => LVError.noConfusion hcon
  · intro x body ho h1 h2 m ra
    rw [AsyncClient.attemptLoop, ho]
    norm_num
    exact fun hcon => LVError.noConfusion hcon
  · intro x code body ho h1 h2 h3 h4 r n hrec ih m ra
    rw [AsyncClient.attemptLoop, ho]
    simp only [h1, h2, h3, if_false, dif_pos h4, hrec]
    have := ih m ra
    rw [hrec] at this
    exact this
  · intro x code body ho h1 h2 h3 h4 m ra
    rw [AsyncClient.attemptLoop, ho]
    simp only [h1, h2, h3, if_false, dif_neg h4]
    simp
  · intro x cat ho h m ra
    rw [AsyncClient.attemptLoop, ho]
    simp [h]
  · intro x cat ho h r n hrec ih m ra
    rw [AsyncClient.attemptLoop, ho]
    simp only [if_neg h, hrec]
    have := ih m ra
    rw [hrec] at this
    exact this

end LogVault

namespace LogVault

theorem syncSend_count_le (R : Nat) (o : Nat → Outcome) :
    ∀ i, i ≤ R → (syncSend R o i).2 ≤ R + 1 - i := by
  refine syncSend.induct R o (fun i => i ≤ R → (syncSend R o i).2 ≤ R + 1 - i)
    ?_ ?_ ?_ ?_ ?_
  · intro x code body ho h r n hrec ih hi
    rw [syncSend, ho]
    simp only [dif_pos h, hrec]
    have := ih (by omega)
    rw [hrec] at this
    have hn : n ≤ R + 1 - (x + 1) := this
    show n + 1 ≤ R + 1 - x
    omega
  · intro x code body ho h1 h2 hi
    rw [syncSend, ho]
    simp only [dif_neg h1, if_pos h2]
    omega
  · intro x code body ho h1 h2 hi
    rw [syncSend, ho]
    simp only [dif_neg h1]
    rw [if_neg (by simp [h2])]
    omega
  · intro x cat ho h r n hrec ih hi
    rw [syncSend, ho]
    simp only [dif_pos h, hrec]
    have := ih (by omega)
    rw [hrec] at this
    have hn : n ≤ R + 1 - (x + 1) := this
    show n + 1 ≤ R + 1 - x
    omega
  · intro x cat ho h hi
    rw [syncSend, ho]
    simp only [dif_neg h]
    omega

theorem syncSend_count_pos (R : Nat) (o : Nat → Outcome) :
    ∀ i, 1 ≤ (syncSend R o i).2 := by
  refine syncSend.induct R o (fun i => 1 ≤ (syncSend R o i).2) ?_ ?_ ?_ ?_ ?_
  · intro x code body ho h r n hrec ih
    rw [syncSend, ho]
    simp only [dif_pos h, hrec]
    show 1 ≤ n + 1
    omega
  · intro x code body ho h1 h2
    rw [syncSend, ho]
    simp only [dif_neg h1, if_pos h2]
    omega
  · intro x code body ho h1 h2
    rw [syncSend, ho]
    simp only [dif_neg h1]
    rw [if_neg (by simp [h2])]
  · intro x cat ho h r n hrec ih
    rw [syncSend, ho]
    simp only [dif_pos h, hrec]
    show 1 ≤ n + 1
    omega
  · intro x cat ho h
    rw [syncSend, ho]
    simp only [dif_neg h]
    omega

theorem syncSend_nonretry (R : Nat) (o : Nat → Outcome) (i code : Nat)
    (body : String) (ho : o i = .status code body)
    (h : retryStatus code = false) : syncSend R o i = (.resp code body, 1) := by
  rw [syncSend, ho]
  simp [h]

theorem syncSend_retryable (R : Nat) (o : Nat → Outcome)
    (ht : ∀ i, retryableOutcome (o i)) :
    ∀ i, i ≤ R → ∃ cat, syncSend R o i = (.exc cat, R + 1 - i) := by
  refine syncSend.induct R o
    (fun i => i ≤ R → ∃ cat, syncSend R o i = (.exc cat, R + 1 - i)) ?_ ?_ ?_ ?_ ?_
  · intro x code body ho h r n hrec ih hi
    obtain ⟨cat, hm⟩ := ih (by omega)
    rw [hrec] at hm
    obtain ⟨hr, hn⟩ := Prod.mk.injEq .. ▸ hm
    refine ⟨cat, ?_⟩
    rw [syncSend, ho]
    simp only [dif_pos h, hrec]
    rw [hr]
    have : n + 1 = R + 1 - x := by omega
    rw [this]
  · intro x code body ho h1 h2 hi
    refine ⟨"RetryError", ?_⟩
    rw [syncSend, ho]
    simp only [dif_neg h1, if_pos h2]
    have hx : ¬ x < R := fun hlt => h1 ⟨h2, hlt⟩
    have : R + 1 - x = 1 := by omega
    rw [this]
  · intro x code body ho h1 h2 hi
    have := ht x
    rw [ho] at this
    simp only [retryableOutcome] at this
    exact absurd this h2
  · intro x cat ho h r n hrec ih hi
    obtain ⟨cat', hm⟩ := ih (by omega)
    rw [hrec] at hm
    obtain ⟨hr, hn⟩ := Prod.mk.injEq .. ▸ hm
    refine ⟨cat', ?_⟩
    rw [syncSend, ho]
    simp only [dif_pos h, hrec]
    rw [hr]
    have : n + 1 = R + 1 - x := by omega
    rw [this]
  · intro x cat ho h hi
    refine ⟨cat, ?_⟩
    rw [syncSend, ho]
    simp only [dif_neg h]
    have : R + 1 - x = 1 := by omega
    rw [this]

theorem syncSend_all429 (R : Nat) (o : Nat → Outcome)
    (h429 : ∀ i, ∃ b, o i = .status 429 b) :
    ∀ i, i ≤ R → syncSend R o i = (.exc "RetryError", R + 1 - i) := by
  refine syncSend.induct R o
    (fun i => i ≤ R → syncSend R o i = (.exc "RetryError", R + 1 - i)) ?_ ?_ ?_ ?_ ?_
  · intro x code body ho h r n hrec ih hi
    have hm := ih (by omega)
    rw [hrec] at hm
    obtain ⟨hr, hn⟩ := Prod.mk.injEq .. ▸ hm
    rw [syncSend, ho]
    simp only [dif_pos h, hrec]
    rw [hr]
    have : n + 1 = R + 1 - x := by omega
    rw [this]
  · intro x code body ho h1 h2 hi
    rw [syncSend, ho]
    simp only [dif_neg h1, if_pos h2]
    have hx : ¬ x < R := fun hlt => h1 ⟨h2, hlt⟩
    have : R + 1 - x = 1 := by omega
    rw [this]
  · intro x code body ho h1 h2 hi
    obtain ⟨b, hb⟩ := h429 x
    rw [ho] at hb
    injection hb with hc _
    rw [hc] at h2
    exact absurd (by decide : retryStatus 429 = true) h2
  · intro x cat ho h r n hrec ih hi
    obtain ⟨b, hb⟩ := h429 x
    rw [ho] at hb
    exact absurd hb (by simp)
  · intro x cat ho h hi
    obtain ⟨b, hb⟩ := h429 x
    rw [ho] at hb
    exact absurd hb (by simp)

theorem syncSend_allNetError (R : Nat) (o : Nat → Outcome)
    (cats : Nat → String) (hnet : ∀ i, o i = .netError (cats i)) :
    ∀ i, i ≤ R → syncSend R o i = (.exc (cats R), R + 1 - i) := by
  refine syncSend.induct R o
    (fun i => i ≤ R → syncSend R o i = (.exc (cats R), R + 1 - i)) ?_ ?_ ?_ ?_ ?_
  · intro x code body ho h r n hrec ih hi
    have hb := hnet x
    rw [ho] at hb
    exact absurd hb (by simp)
  · intro x code body ho h1 h2 hi
    have hb := hnet x
    rw [ho] at hb
    exact absurd hb (by simp)
  · intro x code body ho h1 h2 hi
    have hb := hnet x
    rw [ho] at hb
    exact absurd hb (by simp)
  · intro x cat ho h r n hrec ih hi
    have hm := ih (by omega)
    rw [hrec] at hm
    obtain ⟨hr, hn⟩ := Prod.mk.injEq .. ▸ hm
    rw [syncSend, ho]
    simp only [dif_pos h, hrec]
    rw [hr]
    have : n + 1 = R + 1 - x := by omega
    rw [this]
  · intro x cat ho h hi
    have hx : x = R := by omega
    have hb := hnet x
    rw [ho] at hb
    injection hb with hcat
    rw [syncSend, ho]
    simp only [dif_neg h]
    have h1' : R + 1 - x = 1 := by omega
    rw [h1', hcat, hx]

end LogVault

namespace LogVault

/-- C1 (amended): for every sequence of outcomes, each executor issues at
most `max_retries + 1` attempts total (the initial request plus up to
`max_retries` retries); the retry loop terminates (the model is a total
function, and the attempt count is finite and bounded); and when every
attempt yields a transient outcome (status 429/5xx for the async loop,
a forcelist status 429/500/502/503/504 for the sync adapter, or a
network-level error for either) the full budget of `max_retries + 1`
attempts is used and the operation fails permanently with `APIError`. -/
theorem c1_retry_budget_amended :
    (∀ (api_key action : String) (kwargs : List (String × PyVal))
        (R : Nat) (o : Nat → Outcome) (body : String),
      actionOk action = true →
      dumps (PyVal.dict (AsyncClient.buildPayload action kwargs)) = some body →
        (AsyncClient.log api_key action kwargs R o).2.length ≤ R + 1 ∧
        ((∀ i, transientOutcome (o i)) →
          ∃ msg, (AsyncClient.log api_key action kwargs R o).1 =
              .raised (.APIError msg Option.none) ∧
            (AsyncClient.log api_key action kwargs R o).2.length = R + 1)) ∧
    (∀ (api_key action : String) (user_id resource : Option String)
        (metadata : Option PyVal) (level message tsIso : Option String)
        (nowIso : String) (R : Nat) (o : Nat → Outcome) (body : String),
      actionOk action = true →
      dumps (Client.buildPayload action user_id resource metadata level
          message tsIso nowIso) = some body →
      body.length ≤ 1024 * 1024 →
        (Client.log api_key action user_id resource metadata level message
            tsIso nowIso R o).2.length ≤ R + 1 ∧
        ((∀ i, retryableOutcome (o i)) →
          ∃ cat, (Client.log api_key action user_id resource metadata level
              message tsIso nowIso R o).1 =
              .raised (.APIError ("LogVault Connection Error: " ++ cat) Option.none) ∧
            (Client.log api_key action user_id resource metadata level message
              tsIso nowIso R o).2.length = R + 1)) := by
  constructor
  · intro api_key action kwargs R o body ha hd
    rcases hml : AsyncClient.attemptLoop R o 0 with ⟨r, n⟩
    have hcount := attemptLoop_count_le R o 0 (Nat.zero_le R)
    rw [hml] at hcount
    constructor
    · simp [AsyncClient.log, ha, hd, hml]
      omega
    · intro ht
      obtain ⟨msg, hm⟩ := attemptLoop_transient R o ht 0 (Nat.zero_le R)
      rw [hml] at hm
      obtain ⟨hr, hn⟩ := Prod.mk.injEq .. ▸ hm
      refine ⟨msg, ?_, ?_⟩
      · simp [AsyncClient.log, ha, hd, hml, hr]
      · simp [AsyncClient.log, ha, hd, hml]
        omega
  · intro api_key action user_id resource metadata level message tsIso nowIso
      R o body ha hd hsz
    rcases hts : syncSend R o 0 with ⟨tr, n⟩
    have hcount := syncSend_count_le R o 0 (Nat.zero_le R)
    rw [hts] at hcount
    have hn : n ≤ R + 1 - 0 := hcount
    have hszn : ¬ body.length > 1024 * 1024 := by omega
    constructor
    · cases tr with
      | resp code rbody =>
        simp [Client.log, ha, hd, hts, hszn]
        split_ifs <;> simp <;> omega
      | exc cat =>
        simp [Client.log, ha, hd, hts, hszn]
        omega
    · intro ht
      obtain ⟨cat, hm⟩ := syncSend_retryable R o ht 0 (Nat.zero_le R)
      rw [hts] at hm
      obtain ⟨hr, hrn⟩ := Prod.mk.injEq .. ▸ hm
      subst hr
      refine ⟨cat, ?_, ?_⟩
      · simp [Client.log, ha, hd, hts, hszn]
      · simp [Client.log, ha, hd, hts, hszn]
        omega

end LogVault

namespace LogVault

/-- C1 witness: the amended bound applied at a concrete run — with
`max_retries = 1` and every attempt a connect timeout, the async executor
issues at most 2 requests. -/
theorem c1_witness :
    (AsyncClient.log "lv_test_k" "a.b" [] 1
      (fun _ => Outcome.netError "ConnectTimeout")).2.length ≤ 2 :=
  (c1_retry_budget_amended.1 "lv_test_k" "a.b" [] 1
    (fun _ => Outcome.netError "ConnectTimeout")
    "\x7b\"action\": \"a.b\", \"metadata\": \x7b\x7d\x7d"
    (by decide) rfl).1

set_option maxRecDepth 8000 in
/-- C1 counterexample: the claim as stated is false — with
`max_retries = 3` and a permanent 503, both executors issue 4 requests,
which exceeds `max_retries = 3`. -/
theorem c1_counterexample :
    (AsyncClient.log "lv_test_k" "a.b" [] 3
      (fun _ => Outcome.status 503 "down")).2.length = 4 ∧
    (Client.log "lv_test_k" "a.b" Option.none Option.none Option.none
      Option.none Option.none Option.none "X" 3
      (fun _ => Outcome.status 503 "down")).2.length = 4 ∧
    ¬ (4 : Nat) ≤ 3 := by
  have ha : actionOk "a.b" = true := by decide
  refine ⟨?_, ?_, by omega⟩
  · have hd : dumps (PyVal.dict (AsyncClient.buildPayload "a.b" [])) =
        some "\x7b\"action\": \"a.b\", \"metadata\": \x7b\x7d\x7d" := rfl
    obtain ⟨msg, hm⟩ := attemptLoop_transient 3 (fun _ => Outcome.status 503 "down")
      (fun i => by simp only [transientOutcome]; omega) 0 (by omega)
    simp [AsyncClient.log, ha, hd, hm]
  · have hd : dumps (Client.buildPayload "a.b" Option.none Option.none
        Option.none Option.none Option.none Option.none "X") =
        some "\x7b\"action\": \"a.b\", \"user_id\": null, \"resource\": null, \"metadata\": \x7b\x7d, \"level\": \"info\", \"message\": null, \"timestamp\": \"X\"\x7d" := rfl
    obtain ⟨cat, hm⟩ := syncSend_retryable 3 (fun _ => Outcome.status 503 "down")
      (fun i => by simp only [retryableOutcome]; decide) 0 (by omega)
    simp only [Client.log, ha, hd, hm]
    norm_num
    rw [if_neg (by decide)]
    simp

/-- C2 (amended): a run in which every attempt returns status 429 until
the retry budget is exhausted fails with `APIError` — message
`"HTTP 429"` in the async executor, and in the sync executor the wrapped
retry-exhaustion exception `"LogVault Connection Error: RetryError"` —
not with `RateLimitError`; indeed neither executor's `log` ever raises
`RateLimitError` (and so no retry-after hint is ever surfaced). -/
theorem c2_rate_limit_amended :
    (∀ (api_key action : String) (kwargs : List (String × PyVal))
        (R : Nat) (o : Nat → Outcome) (body : String),
      actionOk action = true →
      dumps (PyVal.dict (AsyncClient.buildPayload action kwargs)) = some body →
      (∀ i, ∃ b, o i = .status 429 b) →
        (AsyncClient.log api_key action kwargs R o).1 =
          .raised (.APIError "HTTP 429" Option.none)) ∧
    (∀ (api_key action : String) (user_id resource : Option String)
        (metadata : Option PyVal) (level message tsIso : Option String)
        (nowIso : String) (R : Nat) (o : Nat → Outcome) (body : String),
      actionOk action = true →
      dumps (Client.buildPayload action user_id resource metadata level
          message tsIso nowIso) = some body →
      body.length ≤ 1024 * 1024 →
      (∀ i, ∃ b, o i = .status 429 b) →
        (Client.log api_key action user_id resource metadata level message
            tsIso nowIso R o).1 =
          .raised (.APIError "LogVault Connection Error: RetryError" Option.none)) ∧
    (∀ (api_key action : String) (kwargs : List (String × PyVal))
        (R : Nat) (o : Nat → Outcome) (m : String) (ra : Option Nat),
      (AsyncClient.log api_key action kwargs R o).1 ≠
        .raised (.RateLimitError m ra)) ∧
    (∀ (api_key action : String) (user_id resource : Option String)
        (metadata : Option PyVal) (level message tsIso : Option String)
        (nowIso : String) (R : Nat) (o : Nat → Outcome) (m : String)
        (ra : Option Nat),
      (Client.log api_key action user_id resource metadata level message
          tsIso nowIso R o).1 ≠ .raised (.RateLimitError m ra)) := by
  refine ⟨?_, ?_, ?_, ?_⟩
  · intro api_key action kwargs R o body ha hd h429
    have hm := attemptLoop_all429 R o h429 0 (Nat.zero_le R)
    simp [AsyncClient.log, ha, hd, hm]
  · intro api_key action user_id resource metadata level message tsIso nowIso
      R o body ha hd hsz h429
    have hszn : ¬ body.length > 1024 * 1024 := by omega
    have hm := syncSend_all429 R o h429 0 (Nat.zero_le R)
    simp [Client.log, ha, hd, hm, hszn]
  · intro api_key action kwargs R o m ra
    by_cases ha : actionOk action = false
    · simp [AsyncClient.log, ha]
    · cases hd : dumps (PyVal.dict (AsyncClient.buildPayload action kwargs)) with
      | none => simp [AsyncClient.log, ha, hd]
      | some body =>
        rcases hml : AsyncClient.attemptLoop R o 0 with ⟨r, n⟩
        have hnr := attemptLoop_never_ratelimit R o 0 m ra
        rw [hml] at hnr
        simp [AsyncClient.log, ha, hd, hml]
        exact hnr
  · intro api_key action user_id resource metadata level message tsIso nowIso
      R o m ra
    by_cases ha : actionOk action = false
    · simp [Client.log, ha]
    · cases hd : dumps (Client.buildPayload action user_id resource metadata
          level message tsIso nowIso) with
      | none => simp [Client.log, ha, hd]
      | some body =>
        by_cases hsz : body.length > 1024 * 1024
        · simp [Client.log, ha, hd, hsz]
        · rcases hts : syncSend R o 0 with ⟨tr, n⟩
          cases tr with
          | resp code rbody =>
            simp only [Client.log, ha, hd, hts]
            simp [hsz]
            split_ifs <;> simp
          | exc cat =>
            simp [Client.log, ha, hd, hts, hsz]

/-- C2 witness: the amended statement applied at a concrete all-429 run
with `max_retries = 1`. -/
theorem c2_witness :
    (AsyncClient.log "lv_test_k" "a.b" [] 1
        (fun _ => Outcome.status 429 "limit")).1 =
      .raised (.APIError "HTTP 429" Option.none) :=
  c2_rate_limit_amended.1 "lv_test_k" "a.b" [] 1
    (fun _ => Outcome.status 429 "limit")
    "\x7b\"action\": \"a.b\", \"metadata\": \x7b\x7d\x7d"
    (by decide) rfl (fun i => ⟨"limit", rfl⟩)

set_option maxRecDepth 8000 in
/-- C2 counterexample: the claim as stated is false — in a run where
every attempt returns 429 until the budget is exhausted, both executors
raise `APIError`, not `RateLimitError`. -/
theorem c2_counterexample :
    (AsyncClient.log "lv_test_k" "a.b" [] 2
        (fun _ => Outcome.status 429 "limit")).1 =
      .raised (.APIError "HTTP 429" Option.none) ∧
    (Client.log "lv_test_k" "a.b" Option.none Option.none Option.none
        Option.none Option.none Option.none "X" 2
        (fun _ => Outcome.status 429 "limit")).1 =
      .raised (.APIError "LogVault Connection Error: RetryError" Option.none) := by
  have ha : actionOk "a.b" = true := by decide
  have h429 : ∀ i : Nat, ∃ b, (fun _ : Nat => Outcome.status 429 "limit") i =
      Outcome.status 429 b := fun i => ⟨"limit", rfl⟩
  constructor
  · have hd : dumps (PyVal.dict (AsyncClient.buildPayload "a.b" [])) =
        some "\x7b\"action\": \"a.b\", \"metadata\": \x7b\x7d\x7d" := rfl
    have hm := attemptLoop_all429 2 (fun _ => Outcome.status 429 "limit") h429
      0 (by omega)
    simp [AsyncClient.log, ha, hd, hm]
  · have hd : dumps (Client.buildPayload "a.b" Option.none Option.none
        Option.none Option.none Option.none Option.none "X") =
        some "\x7b\"action\": \"a.b\", \"user_id\": null, \"resource\": null, \"metadata\": \x7b\x7d, \"level\": \"info\", \"message\": null, \"timestamp\": \"X\"\x7d" := rfl
    have hm := syncSend_all429 2 (fun _ => Outcome.status 429 "limit") h429
      0 (by omega)
    simp only [Client.log, ha, hd, hm]
    norm_num
    rw [if_neg (by decide)]
    rfl

end LogVault

namespace LogVault

/-- C7 (confirmed): when the response to the first attempt has status
401, both executors fail with `AuthenticationError` after exactly one
issued request — 401 is not in the retry forcelist of the sync adapter
and is raised before the async loop's transient check, so it is never
retried and never counts against the retry budget. -/
theorem c7_auth_error_no_retry :
    (∀ (api_key action : String) (user_id resource : Option String)
        (metadata : Option PyVal) (level message tsIso : Option String)
        (nowIso : String) (R : Nat) (o : Nat → Outcome) (body b : String),
      actionOk action = true →
      dumps (Client.buildPayload action user_id resource metadata level
          message tsIso nowIso) = some body →
      body.length ≤ 1024 * 1024 →
      o 0 = .status 401 b →
        Client.log api_key action user_id resource metadata level message
            tsIso nowIso R o =
          (.raised (.AuthenticationError "Invalid API key"),
           [{ bearer := "Bearer " ++ api_key, body := body }])) ∧
    (∀ (api_key action : String) (kwargs : List (String × PyVal))
        (R : Nat) (o : Nat → Outcome) (body b : String),
      actionOk action = true →
      dumps (PyVal.dict (AsyncClient.buildPayload action kwargs)) = some body →
      o 0 = .status 401 b →
        AsyncClient.log api_key action kwargs R o =
          (.raised (.AuthenticationError "Invalid API key"),
           [{ bearer := "Bearer " ++ api_key, body := body }])) := by
  constructor
  · intro api_key action user_id resource metadata level message tsIso nowIso
      R o body b ha hd hsz ho
    have hszn : ¬ body.length > 1024 * 1024 := by omega
    have hts : syncSend R o 0 = (.resp 401 b, 1) :=
      syncSend_nonretry R o 0 401 b ho (by decide)
    simp [Client.log, ha, hd, hszn, hts]
  · intro api_key action kwargs R o body b ha hd ho
    have hml : AsyncClient.attemptLoop R o 0 =
        (.raised (.AuthenticationError "Invalid API key"), 1) := by
      rw [AsyncClient.attemptLoop, ho]
      norm_num
    simp [AsyncClient.log, ha, hd, hml]

/-- C7 witness: both conjuncts applied at a concrete 401 run. -/
theorem c7_witness :
    Client.log "lv_test_k" "a.b" Option.none Option.none Option.none
        Option.none Option.none Option.none "X" 3
        (fun _ => Outcome.status 401 "denied") =
      (.raised (.AuthenticationError "Invalid API key"),
       [{ bearer := "Bearer " ++ "lv_test_k",
          body := "\x7b\"action\": \"a.b\", \"user_id\": null, \"resource\": null, \"metadata\": \x7b\x7d, \"level\": \"info\", \"message\": null, \"timestamp\": \"X\"\x7d" }]) :=
  c7_auth_error_no_retry.1 "lv_test_k" "a.b" Option.none Option.none
    Option.none Option.none Option.none Option.none "X" 3
    (fun _ => Outcome.status 401 "denied")
    "\x7b\"action\": \"a.b\", \"user_id\": null, \"resource\": null, \"metadata\": \x7b\x7d, \"level\": \"info\", \"message\": null, \"timestamp\": \"X\"\x7d"
    "denied" (by decide) rfl (by decide) rfl

theorem attemptLoop_none_ne (R : Nat) (o : Nat → Outcome) :
    ∀ a, (AsyncClient.attemptLoop R o a).1 ≠ .returned Option.none := by
  refine AsyncClient.attemptLoop.induct R o
    (fun a => (AsyncClient.attemptLoop R o a).1 ≠ .returned Option.none)
    ?_ ?_ ?_ ?_ ?_ ?_ ?_
  · intro x code body ho h
    rw [AsyncClient.attemptLoop, ho]
    simp [h]
  · intro x body ho h1
    rw [AsyncClient.attemptLoop, ho]
    norm_num
    exact fun hcon => LogResult.noConfusion hcon
  · intro x body ho h1 h2
    rw [AsyncClient.attemptLoop, ho]
    norm_num
    exact fun hcon => LogResult.noConfusion hcon
  · intro x code body ho h1 h2 h3 h4 r n hrec ih
    rw [AsyncClient.attemptLoop, ho]
    simp only [h1, h2, h3, if_false, dif_pos h4, hrec]
    rw [hrec] at ih
    exact ih
  · intro x code body ho h1 h2 h3 h4
    rw [AsyncClient.attemptLoop, ho]
    simp only [h1, h2, h3, if_false, dif_neg h4]
    simp
  · intro x cat ho h
    rw [AsyncClient.attemptLoop, ho]
    simp [h]
  · intro x cat ho h r n hrec ih
    rw [AsyncClient.attemptLoop, ho]
    simp only [if_neg h, hrec]
    rw [hrec] at ih
    exact ih

/-- C5 (confirmed): a submission whose payload cannot be serialized makes
the `log` operation of either executor return Python `None` with no
exception raised and no request issued (the logged diagnostic is outside
the model); and this is the sole swallowed failure: any run of `log` that
returns `None` arose from a serialization failure and issued no request. -/
theorem c5_serialization_swallowed :
    (∀ (api_key action : String) (user_id resource : Option String)
        (metadata : Option PyVal) (level message tsIso : Option String)
        (nowIso : String) (R : Nat) (o : Nat → Outcome),
      actionOk action = true →
      dumps (Client.buildPayload action user_id resource metadata level
          message tsIso nowIso) = Option.none →
        Client.log api_key action user_id resource metadata level message
          tsIso nowIso R o = (.returned Option.none, [])) ∧
    (∀ (api_key action : String) (user_id resource : Option String)
        (metadata : Option PyVal) (level message tsIso : Option String)
        (nowIso : String) (R : Nat) (o : Nat → Outcome) (reqs : List Request),
      Client.log api_key action user_id resource metadata level message
          tsIso nowIso R o = (.returned Option.none, reqs) →
        dumps (Client.buildPayload action user_id resource metadata level
          message tsIso nowIso) = Option.none ∧ reqs = []) ∧
    (∀ (api_key action : String) (kwargs : List (String × PyVal))
        (R : Nat) (o : Nat → Outcome),
      actionOk action = true →
      dumps (PyVal.dict (AsyncClient.buildPayload action kwargs)) = Option.none →
        AsyncClient.log api_key action kwargs R o = (.returned Option.none, [])) ∧
    (∀ (api_key action : String) (kwargs : List (String × PyVal))
        (R : Nat) (o : Nat → Outcome) (reqs : List Request),
      AsyncClient.log api_key action kwargs R o = (.returned Option.none, reqs) →
        dumps (PyVal.dict (AsyncClient.buildPayload action kwargs)) = Option.none ∧
        reqs = []) := by
  refine ⟨?_, ?_, ?_, ?_⟩
  · intro api_key action user_id resource metadata level message tsIso nowIso
      R o ha hd
    simp [Client.log, ha, hd]
  · intro api_key action user_id resource metadata level message tsIso nowIso
      R o reqs hlog
    by_cases ha : actionOk action = false
    · simp [Client.log, ha] at hlog
    · cases hd : dumps (Client.buildPayload action user_id resource metadata
          level message tsIso nowIso) with
      | none =>
        simp [Client.log, ha, hd] at hlog
        exact ⟨rfl, hlog⟩
      | some body =>
        exfalso
        by_cases hsz : body.length > 1024 * 1024
        · simp [Client.log, ha, hd, hsz] at hlog
        · rcases hts : syncSend R o 0 with ⟨tr, n⟩
          cases tr with
          | resp code rbody =>
            simp only [Client.log, ha, hd, hts] at hlog
            norm_num at hlog
            rw [if_neg hsz] at hlog
            split_ifs at hlog <;> simp at hlog
          | exc cat =>
            simp only [Client.log, ha, hd, hts] at hlog
            norm_num at hlog
            rw [if_neg hsz] at hlog
            simp at hlog
  · intro api_key action kwargs R o ha hd
    simp [AsyncClient.log, ha, hd]
  · intro api_key action kwargs R o reqs hlog
    by_cases ha : actionOk action = false
    · simp [AsyncClient.log, ha] at hlog
    · cases hd : dumps (PyVal.dict (AsyncClient.buildPayload action kwargs)) with
      | none =>
        simp [AsyncClient.log, ha, hd] at hlog
        exact ⟨rfl, hlog⟩
      | some body =>
        exfalso
        rcases hml : AsyncClient.attemptLoop R o 0 with ⟨r, n⟩
        have hne := attemptLoop_none_ne R o 0
        rw [hml] at hne
        simp only [AsyncClient.log, ha, hd, hml] at hlog
        norm_num at hlog
        cases r with
        | raised e => simp at hlog
        | returned v =>
          simp at hlog
          exact hne (by rw [hlog.1])

end LogVault

namespace LogVault

/-- C5 witness: the sync conjunct applied at a concrete non-serializable
metadata value (a Python set inside the metadata dict). -/
theorem c5_witness :
    Client.log "lv_test_k" "a.b" Option.none Option.none
        (some (.dict [("bad", .obj "set")])) Option.none Option.none
        Option.none "X" 3 (fun _ => Outcome.status 200 "ok") =
      (.returned Option.none, []) :=
  c5_serialization_swallowed.1 "lv_test_k" "a.b" Option.none Option.none
    (some (.dict [("bad", .obj "set")])) Option.none Option.none Option.none
    "X" 3 (fun _ => Outcome.status 200 "ok") (by decide) rfl

theorem lookup_append_none {β : Type} (k : String) (l1 l2 : List (String × β))
    (h : l1.lookup k = Option.none) : (l1 ++ l2).lookup k = l2.lookup k := by
  induction l1 with
  | nil => simp
  | cons e es ih =>
    rcases e with ⟨a, b⟩
    cases hk : (k == a) with
    | true =>
      exfalso
      simp only [List.lookup, hk] at h
      exact Option.noConfusion h
    | false =>
      simp only [List.lookup, List.cons_append, hk] at h ⊢
      exact ih h

theorem lookup_append_some {β : Type} (k : String) (l1 l2 : List (String × β))
    (v : β) (h : l1.lookup k = some v) : (l1 ++ l2).lookup k = some v := by
  induction l1 with
  | nil => simp at h
  | cons e es ih =>
    rcases e with ⟨a, b⟩
    cases hk : (k == a) with
    | true =>
      simp only [List.lookup, List.cons_append, hk] at h ⊢
      exact h
    | false =>
      simp only [List.lookup, List.cons_append, hk] at h ⊢
      exact ih h

/-- C6 (amended): the sync builder applies all three documented defaults —
absent `metadata` becomes `{}`, absent `level` becomes `"info"`, absent
`timestamp` becomes the current UTC instant's ISO-8601 text; the async
builder applies only the `metadata` default, and `level` and `timestamp`
are simply absent from the submission when not supplied by the caller. -/
theorem c6_builder_defaults_amended :
    (∀ (action : String) (user_id resource message : Option String)
        (nowIso : String),
      Client.buildPayload action user_id resource Option.none Option.none
          message Option.none nowIso =
        .dict [("action", .str action), ("user_id", optStr user_id),
               ("resource", optStr resource), ("metadata", .dict []),
               ("level", .str "info"), ("message", optStr message),
               ("timestamp", .str nowIso)]) ∧
    (∀ (action : String) (kwargs : List (String × PyVal)),
      kwargs.lookup "metadata" = Option.none →
      kwargs.lookup "level" = Option.none →
      kwargs.lookup "timestamp" = Option.none →
        (AsyncClient.buildPayload action kwargs).lookup "metadata" =
          some (.dict []) ∧
        (AsyncClient.buildPayload action kwargs).lookup "level" = Option.none ∧
        (AsyncClient.buildPayload action kwargs).lookup "timestamp" =
          Option.none) := by
  constructor
  · intro action user_id resource message nowIso
    rfl
  · intro action kwargs hm hl ht
    have hm0 : (("action", PyVal.str action) :: kwargs).lookup "metadata" =
        Option.none := by
      simp only [List.lookup]
      exact hm
    have hl0 : (("action", PyVal.str action) :: kwargs).lookup "level" =
        Option.none := by
      simp only [List.lookup]
      exact hl
    have ht0 : (("action", PyVal.str action) :: kwargs).lookup "timestamp" =
        Option.none := by
      simp only [List.lookup]
      exact ht
    have hbranch : (AsyncClient.buildPayload action kwargs) =
        (("action", PyVal.str action) :: kwargs) ++ [("metadata", PyVal.dict [])] := by
      simp [AsyncClient.buildPayload, hm0]
    rw [hbranch]
    refine ⟨?_, ?_, ?_⟩
    · rw [lookup_append_none "metadata" _ _ hm0]
      rfl
    · rw [lookup_append_none "level" _ _ hl0]
      rfl
    · rw [lookup_append_none "timestamp" _ _ ht0]
      rfl

/-- C6 witness: the async conjunct applied at a call with no keyword
arguments. -/
theorem c6_witness :
    (AsyncClient.buildPayload "a.b" []).lookup "metadata" =
      some (PyVal.dict []) ∧
    (AsyncClient.buildPayload "a.b" []).lookup "level" = Option.none ∧
    (AsyncClient.buildPayload "a.b" []).lookup "timestamp" = Option.none :=
  (c6_builder_defaults_amended.2 "a.b" [] rfl rfl rfl)

/-- C6 counterexample: the claim as stated is false — the async builder,
called with no optional fields, produces a submission with no `level`
field at all (and no `timestamp` field), rather than one whose level
defaults to `"info"`. -/
theorem c6_counterexample :
    AsyncClient.buildPayload "a.b" [] =
      [("action", PyVal.str "a.b"), ("metadata", PyVal.dict [])] ∧
    (AsyncClient.buildPayload "a.b" []).lookup "level" = Option.none ∧
    ¬ (AsyncClient.buildPayload "a.b" []).lookup "level" =
        some (PyVal.str "info") := by
  refine ⟨rfl, rfl, ?_⟩
  intro h
  rw [(rfl : (AsyncClient.buildPayload "a.b" []).lookup "level" =
    (Option.none : Option PyVal))] at h
  exact Option.noConfusion h

end LogVault

namespace LogVault

/-- C8 (amended): the effective `page_size` query parameter of the list
operation is `min(page_size, 100)` in both clients: it is clamped from
above at 100 (in particular `page_size = 500` is sent as 100), equals the
requested value whenever that is at most 100, and — contrary to the
claim — has no lower clamp, so values below 1 are sent unchanged. -/
theorem c8_page_size_amended :
    ∀ (page page_size : Int) (u a : Option String),
      (Client.list_events_params page page_size u a).lookup "page_size" =
        some (.int (min page_size 100)) ∧
      (AsyncClient.list_events_params page page_size u a).lookup "page_size" =
        some (.int (min page_size 100)) ∧
      min page_size 100 ≤ 100 ∧
      (100 ≤ page_size → min page_size 100 = 100) ∧
      (page_size ≤ 100 → min page_size 100 = page_size) := by
  intro page page_size u a
  have hbase : ([("page", PyVal.int page),
      ("page_size", PyVal.int (min page_size 100))]).lookup "page_size" =
      some (PyVal.int (min page_size 100)) := by
    simp [List.lookup]
  refine ⟨?_, ?_, min_le_right _ _, fun h => min_eq_right h,
    fun h => min_eq_left h⟩
  · unfold Client.list_events_params
    rcases u with _ | u <;> rcases a with _ | a <;>
      simp only [] <;> (try split_ifs) <;> exact hbase
  · unfold AsyncClient.list_events_params
    rcases u with _ | u <;> rcases a with _ | a <;>
      simp only [] <;> (try split_ifs) <;> exact hbase

/-- C8 witness: the clamp applied at `page_size = 500`. -/
theorem c8_witness :
    (Client.list_events_params 1 500 Option.none Option.none).lookup
        "page_size" = some (.int (min 500 100)) ∧
    min (500 : Int) 100 = 100 :=
  ⟨(c8_page_size_amended 1 500 Option.none Option.none).1,
   (c8_page_size_amended 1 500 Option.none Option.none).2.2.2.1 (by norm_num)⟩

/-- C8 counterexample: the claim as stated is false — `page_size = 0` is
sent as 0, outside the claimed range `[1, 100]`; the upper clamp
(500 → 100) does hold. -/
theorem c8_counterexample :
    (Client.list_events_params 1 0 Option.none Option.none).lookup
        "page_size" = some (PyVal.int 0) ∧
    ¬ ((1 : Int) ≤ 0) ∧
    (AsyncClient.list_events_params 1 500 Option.none Option.none).lookup
        "page_size" = some (PyVal.int 100) := by
  refine ⟨?_, by norm_num, ?_⟩
  · show (Client.list_events_params 1 0 Option.none Option.none).lookup
        "page_size" = some (PyVal.int (min 0 100))
    simp [Client.list_events_params, List.lookup]
  · show (AsyncClient.list_events_params 1 500 Option.none Option.none).lookup
        "page_size" = some (PyVal.int (min 500 100))
    simp [AsyncClient.list_events_params, List.lookup]

end LogVault

namespace LogVault

/-- C9 (amended): the outcome (including every raised error and its
message) of either executor's `log` is independent of the credential —
the api key reaches only the request's `Authorization` header, never an
error message; and network-level failures that exhaust the budget are
wrapped into `APIError` carrying only the failure category name.
However, contrary to the claim, the 422 path embeds the raw response body
verbatim in the `ValidationError` message `"Validation failed: <body>"`,
so not every raised error is free of response-body content. -/
theorem c9_error_messages_amended :
    (∀ (k1 k2 action : String) (user_id resource : Option String)
        (metadata : Option PyVal) (level message tsIso : Option String)
        (nowIso : String) (R : Nat) (o : Nat → Outcome),
      (Client.log k1 action user_id resource metadata level message tsIso
          nowIso R o).1 =
      (Client.log k2 action user_id resource metadata level message tsIso
          nowIso R o).1) ∧
    (∀ (k1 k2 action : String) (kwargs : List (String × PyVal))
        (R : Nat) (o : Nat → Outcome),
      (AsyncClient.log k1 action kwargs R o).1 =
      (AsyncClient.log k2 action kwargs R o).1) ∧
    (∀ (api_key action : String) (user_id resource : Option String)
        (metadata : Option PyVal) (level message tsIso : Option String)
        (nowIso : String) (R : Nat) (o : Nat → Outcome)
        (cats : Nat → String) (body : String),
      actionOk action = true →
      dumps (Client.buildPayload action user_id resource metadata level
          message tsIso nowIso) = some body →
      body.length ≤ 1024 * 1024 →
      (∀ i, o i = .netError (cats i)) →
        (Client.log api_key action user_id resource metadata level message
            tsIso nowIso R o).1 =
          .raised (.APIError ("LogVault Connection Error: " ++ cats R)
            Option.none)) ∧
    (∀ (api_key action : String) (kwargs : List (String × PyVal))
        (R : Nat) (o : Nat → Outcome) (cats : Nat → String) (body : String),
      actionOk action = true →
      dumps (PyVal.dict (AsyncClient.buildPayload action kwargs)) = some body →
      (∀ i, o i = .netError (cats i)) →
        (AsyncClient.log api_key action kwargs R o).1 =
          .raised (.APIError ("Connection failed after " ++ toString R ++
            " retries: " ++ cats R) Option.none)) := by
  refine ⟨?_, ?_, ?_, ?_⟩
  · intro k1 k2 action user_id resource metadata level message tsIso nowIso R o
    by_cases ha : actionOk action = false
    · simp [Client.log, ha]
    · cases hd : dumps (Client.buildPayload action user_id resource metadata
          level message tsIso nowIso) with
      | none => simp [Client.log, ha, hd]
      | some body =>
        by_cases hsz : body.length > 1024 * 1024
        · simp [Client.log, ha, hd, hsz]
        · rcases hts : syncSend R o 0 with ⟨tr, n⟩
          cases tr with
          | resp code rbody =>
            simp only [Client.log, ha, hd, hts]
            norm_num
            rw [if_neg (show ¬ 1048576 < body.length by omega)]
            split_ifs <;> rfl
          | exc cat =>
            simp only [Client.log, ha, hd, hts]
            norm_num
            simp only [if_neg (show ¬ 1048576 < body.length by omega)]
  · intro k1 k2 action kwargs R o
    by_cases ha : actionOk action = false
    · simp [AsyncClient.log, ha]
    · cases hd : dumps (PyVal.dict (AsyncClient.buildPayload action kwargs)) with
      | none => simp [AsyncClient.log, ha, hd]
      | some body =>
        rcases hml : AsyncClient.attemptLoop R o 0 with ⟨r, n⟩
        simp [AsyncClient.log, ha, hd, hml]
  · intro api_key action user_id resource metadata level message tsIso nowIso
      R o cats body ha hd hsz hnet
    have hszn : ¬ body.length > 1024 * 1024 := by omega
    have hm := syncSend_allNetError R o cats hnet 0 (Nat.zero_le R)
    simp [Client.log, ha, hd, hszn, hm]
  · intro api_key action kwargs R o cats body ha hd hnet
    have hm := attemptLoop_allNetError R o cats hnet 0 (Nat.zero_le R)
    simp [AsyncClient.log, ha, hd, hm]

/-- C9 witness: the network-wrap conjunct applied at a concrete run of
read timeouts with `max_retries = 1`. -/
theorem c9_witness :
    (Client.log "lv_test_k" "a.b" Option.none Option.none Option.none
        Option.none Option.none Option.none "X" 1
        (fun _ => Outcome.netError "ReadTimeout")).1 =
      .raised (.APIError ("LogVault Connection Error: " ++ "ReadTimeout")
        Option.none) :=
  c9_error_messages_amended.2.2.1 "lv_test_k" "a.b" Option.none Option.none
    Option.none Option.none Option.none Option.none "X" 1
    (fun _ => Outcome.netError "ReadTimeout") (fun _ => "ReadTimeout")
    "\x7b\"action\": \"a.b\", \"user_id\": null, \"resource\": null, \"metadata\": \x7b\x7d, \"level\": \"info\", \"message\": null, \"timestamp\": \"X\"\x7d"
    (by decide) rfl (by decide) (fun i => rfl)

set_option maxRecDepth 8000 in
/-- C9 counterexample: the claim as stated is false — on a 422 response
both executors raise `ValidationError` whose message embeds the raw
response body (here `"SECRET_BODY"`) verbatim. -/
theorem c9_counterexample :
    (Client.log "lv_test_k" "a.b" Option.none Option.none Option.none
        Option.none Option.none Option.none "X" 3
        (fun _ => Outcome.status 422 "SECRET_BODY")).1 =
      .raised (.ValidationError ("Validation failed: " ++ "SECRET_BODY")) ∧
    (AsyncClient.log "lv_test_k" "a.b" [] 3
        (fun _ => Outcome.status 422 "SECRET_BODY")).1 =
      .raised (.ValidationError ("Validation failed: " ++ "SECRET_BODY")) := by
  have ha : actionOk "a.b" = true := by decide
  constructor
  · have hd : dumps (Client.buildPayload "a.b" Option.none Option.none
        Option.none Option.none Option.none Option.none "X") =
        some "\x7b\"action\": \"a.b\", \"user_id\": null, \"resource\": null, \"metadata\": \x7b\x7d, \"level\": \"info\", \"message\": null, \"timestamp\": \"X\"\x7d" := rfl
    have hts : syncSend 3 (fun _ => Outcome.status 422 "SECRET_BODY") 0 =
        (.resp 422 "SECRET_BODY", 1) :=
      syncSend_nonretry 3 _ 0 422 "SECRET_BODY" rfl (by decide)
    simp only [Client.log, ha, hd, hts]
    norm_num
    rw [if_neg (by decide)]
  · have hd : dumps (PyVal.dict (AsyncClient.buildPayload "a.b" [])) =
        some "\x7b\"action\": \"a.b\", \"metadata\": \x7b\x7d\x7d" := rfl
    have hml : AsyncClient.attemptLoop 3
        (fun _ => Outcome.status 422 "SECRET_BODY") 0 =
        (.raised (.ValidationError ("Validation failed: " ++ "SECRET_BODY")), 1) := by
      rw [AsyncClient.attemptLoop]
      norm_num
    simp [AsyncClient.log, ha, hd, hml]

/-- C10 (confirmed): `AsyncClient.list_events` and
`AsyncClient.search_events` issue exactly one request per call with no
retry for any status: 401 raises `AuthenticationError`, every other
non-200 status (including 422, 429 and 5xx) raises `APIError` naming the
status, and 200 returns the decoded body. -/
theorem c10_async_queries_single_attempt :
    ∀ (code : Nat) (body q : String), 2 ≤ q.length →
      ((AsyncClient.list_events (.status code body)).2 = 1 ∧
       (AsyncClient.search_events q (.status code body)).2 = 1) ∧
      (code = 401 →
        (AsyncClient.list_events (.status code body)).1 =
          .raised (.AuthenticationError "Invalid API key") ∧
        (AsyncClient.search_events q (.status code body)).1 =
          .raised (.AuthenticationError "Invalid API key")) ∧
      (code ≠ 401 → code ≠ 200 →
        (AsyncClient.list_events (.status code body)).1 =
          .raised (.APIError ("HTTP " ++ toString code) Option.none) ∧
        (AsyncClient.search_events q (.status code body)).1 =
          .raised (.APIError ("HTTP " ++ toString code) Option.none)) ∧
      (code = 200 →
        (AsyncClient.list_events (.status code body)).1 = .returned body ∧
        (AsyncClient.search_events q (.status code body)).1 = .returned body) := by
  intro code body q hq
  have hq2 : ¬ q.length < 2 := by omega
  refine ⟨⟨rfl, by simp [AsyncClient.search_events, hq2]⟩, ?_, ?_, ?_⟩
  · intro h401
    subst h401
    constructor
    · simp [AsyncClient.list_events, AsyncClient.queryClassify]
    · simp [AsyncClient.search_events, AsyncClient.queryClassify, hq2]
  · intro h401 h200
    constructor
    · simp [AsyncClient.list_events, AsyncClient.queryClassify, h401, h200]
    · simp [AsyncClient.search_events, AsyncClient.queryClassify, hq2, h401, h200]
  · intro h200
    subst h200
    constructor
    · simp [AsyncClient.list_events, AsyncClient.queryClassify]
    · simp [AsyncClient.search_events, AsyncClient.queryClassify, hq2]

/-- C10 witness: the classification applied at status 503 with the query
`"ab"` — a retryable-looking status still fails immediately with
`APIError` after the single attempt. -/
theorem c10_witness :
    (AsyncClient.list_events (.status 503 "down")).1 =
      .raised (.APIError ("HTTP " ++ toString 503) Option.none) ∧
    (AsyncClient.search_events "ab" (.status 503 "down")).1 =
      .raised (.APIError ("HTTP " ++ toString 503) Option.none) :=
  (c10_async_queries_single_attempt 503 "down" "ab" (by decide)).2.2.1
    (by decide) (by decide)

end LogVault

namespace LogVault

/-- A string of `n` letters `a` — a payload filler whose JSON escaping is
itself, used to realize payloads of exact serialized sizes. -/
def repA (n : Nat) : String :=
  String.mk (List.replicate n 'a')

theorem flatten_replicate_singleton {α : Type} (n : Nat) (a : α) :
    List.flatten (List.replicate n [a]) = List.replicate n a := by
  induction n with
  | zero => rfl
  | succ k ih => simp [List.replicate_succ, ih]

theorem escString_repA (n : Nat) : escString (repA n) = repA n := by
  unfold escString repA
  have h1 : (String.mk (List.replicate n 'a')).data = List.replicate n 'a' := rfl
  rw [h1, List.map_replicate]
  have h2 : escChar 'a' = ['a'] := by decide
  rw [h2, flatten_replicate_singleton]

theorem repA_length (n : Nat) : (repA n).length = n := by
  show (List.replicate n 'a').length = n
  exact List.length_replicate n 'a'

theorem dumps_syncPayload_len (s : String) (hesc : escString s = s) :
    ∃ body, dumps (Client.buildPayload "a.b" Option.none Option.none
        Option.none Option.none (some s) (some "2025-01-01T00:00:00") "Z") =
      some body ∧ body.length = 136 + s.length := by
  refine ⟨_, rfl, ?_⟩
  simp only [joinComma, hesc, Option.getD_none, Option.getD_some,
    show escString "action" = "action" from rfl,
    show escString "user_id" = "user_id" from rfl,
    show escString "resource" = "resource" from rfl,
    show escString "metadata" = "metadata" from rfl,
    show escString "level" = "level" from rfl,
    show escString "message" = "message" from rfl,
    show escString "timestamp" = "timestamp" from rfl,
    show escString "a.b" = "a.b" from rfl,
    show escString "info" = "info" from rfl,
    show escString "2025-01-01T00:00:00" = "2025-01-01T00:00:00" from rfl]
  simp only [String.length_append,
    show ("" : String).length = 0 from rfl,
    show ("\x7b" : String).length = 1 from rfl,
    show ("\x7d" : String).length = 1 from rfl,
    show ("\"" : String).length = 1 from rfl,
    show ("\": " : String).length = 3 from rfl,
    show (", " : String).length = 2 from rfl,
    show ("null" : String).length = 4 from rfl,
    show ("action" : String).length = 6 from rfl,
    show ("user_id" : String).length = 7 from rfl,
    show ("resource" : String).length = 8 from rfl,
    show ("metadata" : String).length = 8 from rfl,
    show ("level" : String).length = 5 from rfl,
    show ("message" : String).length = 7 from rfl,
    show ("timestamp" : String).length = 9 from rfl,
    show ("a.b" : String).length = 3 from rfl,
    show ("info" : String).length = 4 from rfl,
    show ("2025-01-01T00:00:00" : String).length = 19 from rfl]
  omega

theorem dumps_asyncPayload_len (s : String) (hesc : escString s = s) :
    ∃ body, dumps (PyVal.dict (AsyncClient.buildPayload "a.b"
        [("message", PyVal.str s)])) = some body ∧
      body.length = 48 + s.length := by
  refine ⟨_, rfl, ?_⟩
  simp only [joinComma, hesc,
    show escString "action" = "action" from rfl,
    show escString "message" = "message" from rfl,
    show escString "metadata" = "metadata" from rfl,
    show escString "a.b" = "a.b" from rfl]
  simp only [String.length_append,
    show ("" : String).length = 0 from rfl,
    show ("\x7b" : String).length = 1 from rfl,
    show ("\x7d" : String).length = 1 from rfl,
    show ("\"" : String).length = 1 from rfl,
    show ("\": " : String).length = 3 from rfl,
    show (", " : String).length = 2 from rfl,
    show ("action" : String).length = 6 from rfl,
    show ("message" : String).length = 7 from rfl,
    show ("metadata" : String).length = 8 from rfl,
    show ("a.b" : String).length = 3 from rfl]
  omega

end LogVault

namespace LogVault

theorem validation_msg_ne (rbody : String) :
    ("Validation failed: " ++ rbody) ≠ "Payload size exceeds 1MB" := by
  intro h
  have hdata : ("Validation failed: " ++ rbody).data =
      ("Payload size exceeds 1MB" : String).data := congrArg String.data h
  have hhead : ("Validation failed: " ++ rbody).data.head? = some 'V' := rfl
  rw [hdata] at hhead
  have : ('P' : Char) = 'V' := by
    have := hhead
    simp at this
  exact absurd this (by decide)

theorem attemptLoop_validation_msg (R : Nat) (o : Nat → Outcome) :
    ∀ a m, (AsyncClient.attemptLoop R o a).1 = .raised (.ValidationError m) →
      ∃ rb, m = "Validation failed: " ++ rb := by
  refine AsyncClient.attemptLoop.induct R o
    (fun a => ∀ m, (AsyncClient.attemptLoop R o a).1 =
      .raised (.ValidationError m) → ∃ rb, m = "Validation failed: " ++ rb)
    ?_ ?_ ?_ ?_ ?_ ?_ ?_
  · intro x code body ho h m hm
    rw [AsyncClient.attemptLoop, ho] at hm
    simp [h] at hm
  · intro x body ho h1 m hm
    rw [AsyncClient.attemptLoop, ho] at hm
    norm_num at hm
    exact LVError.noConfusion hm
  · intro x body ho h1 h2 m hm
    rw [AsyncClient.attemptLoop, ho] at hm
    norm_num at hm
    exact ⟨body, hm.symm⟩
  · intro x code body ho h1 h2 h3 h4 r n hrec ih m hm
    rw [AsyncClient.attemptLoop, ho] at hm
    simp only [h1, h2, h3, if_false, dif_pos h4, hrec] at hm
    apply ih m
    rw [hrec]
    exact hm
  · intro x code body ho h1 h2 h3 h4 m hm
    rw [AsyncClient.attemptLoop, ho] at hm
    simp only [h1, h2, h3, if_false, dif_neg h4] at hm
    simp at hm
  · intro x cat ho h m hm
    rw [AsyncClient.attemptLoop, ho] at hm
    simp [h] at hm
  · intro x cat ho h r n hrec ih m hm
    rw [AsyncClient.attemptLoop, ho] at hm
    simp only [if_neg h, hrec] at hm
    apply ih m
    rw [hrec]
    exact hm

/-- C4 (amended): in the sync executor, when the serialized submission
exceeds 1 MiB (1024*1024 characters) building fails with
`ValidationError("Payload size exceeds 1MB")` and no request is sent,
and at any size up to and including the limit — in particular at exactly
1 MiB minus one — building succeeds: the size error is not raised and at
least one request is issued.  The async executor, contrary to the claim,
performs no size check at all: whenever the payload serializes, it sends
the request regardless of the serialized size and never raises the size
`ValidationError`. -/
theorem c4_size_limit_amended :
    (∀ (api_key action : String) (user_id resource : Option String)
        (metadata : Option PyVal) (level message tsIso : Option String)
        (nowIso : String) (R : Nat) (o : Nat → Outcome) (body : String),
      actionOk action = true →
      dumps (Client.buildPayload action user_id resource metadata level
          message tsIso nowIso) = some body →
      1024 * 1024 < body.length →
        Client.log api_key action user_id resource metadata level message
          tsIso nowIso R o =
        (.raised (.ValidationError "Payload size exceeds 1MB"), [])) ∧
    (∀ (api_key action : String) (user_id resource : Option String)
        (metadata : Option PyVal) (level message tsIso : Option String)
        (nowIso : String) (R : Nat) (o : Nat → Outcome) (body : String),
      actionOk action = true →
      dumps (Client.buildPayload action user_id resource metadata level
          message tsIso nowIso) = some body →
      body.length ≤ 1024 * 1024 →
        (Client.log api_key action user_id resource metadata level message
            tsIso nowIso R o).1 ≠
          .raised (.ValidationError "Payload size exceeds 1MB") ∧
        (Client.log api_key action user_id resource metadata level message
          tsIso nowIso R o).2 ≠ []) ∧
    (∀ (api_key action : String) (kwargs : List (String × PyVal))
        (R : Nat) (o : Nat → Outcome) (body : String),
      actionOk action = true →
      dumps (PyVal.dict (AsyncClient.buildPayload action kwargs)) = some body →
        (AsyncClient.log api_key action kwargs R o).1 ≠
          .raised (.ValidationError "Payload size exceeds 1MB") ∧
        (AsyncClient.log api_key action kwargs R o).2 ≠ []) := by
  refine ⟨?_, ?_, ?_⟩
  · intro api_key action user_id resource metadata level message tsIso nowIso
      R o body ha hd hsz
    simp [Client.log, ha, hd, hsz]
  · intro api_key action user_id resource metadata level message tsIso nowIso
      R o body ha hd hsz
    have hszn : ¬ body.length > 1024 * 1024 := by omega
    rcases hts : syncSend R o 0 with ⟨tr, n⟩
    have hpos := syncSend_count_pos R o 0
    rw [hts] at hpos
    have hn : 1 ≤ n := hpos
    constructor
    · cases tr with
      | resp code rbody =>
        simp only [Client.log, ha, hd, hts]
        norm_num
        simp only [if_neg (show ¬ 1048576 < body.length by omega)]
        split_ifs <;> simp
        exact fun hcon => validation_msg_ne rbody hcon
      | exc cat =>
        simp only [Client.log, ha, hd, hts]
        norm_num
        simp only [if_neg (show ¬ 1048576 < body.length by omega)]
        simp
    · cases tr with
      | resp code rbody =>
        simp only [Client.log, ha, hd, hts]
        norm_num
        simp only [if_neg (show ¬ 1048576 < body.length by omega)]
        split_ifs <;> simp <;> omega
      | exc cat =>
        simp only [Client.log, ha, hd, hts]
        norm_num
        simp only [if_neg (show ¬ 1048576 < body.length by omega)]
        simp
        omega
  · intro api_key action kwargs R o body ha hd
    rcases hml : AsyncClient.attemptLoop R o 0 with ⟨r, n⟩
    have hpos := attemptLoop_count_pos R o 0
    rw [hml] at hpos
    have hn : 1 ≤ n := hpos
    constructor
    · simp only [AsyncClient.log, ha, hd, hml]
      norm_num
      intro hcon
      obtain ⟨rb, hrb⟩ := attemptLoop_validation_msg R o 0
        "Payload size exceeds 1MB" (by rw [hml]; exact hcon)
      exact validation_msg_ne rb hrb.symm
    · simp [AsyncClient.log, ha, hd, hml]
      omega

end LogVault

namespace LogVault

/-- C4 witness: the sync conjuncts applied at concrete boundary payloads —
a submission whose serialized form is exactly 1 MiB minus one character
(a 1048439-character message) builds successfully and is sent. -/
theorem c4_witness :
    (∃ body, dumps (Client.buildPayload "a.b" Option.none Option.none
        Option.none Option.none (some (repA 1048439))
        (some "2025-01-01T00:00:00") "Z") = some body ∧
      body.length = 1048575) ∧
    (Client.log "lv_test_k" "a.b" Option.none Option.none Option.none
        Option.none (some (repA 1048439)) (some "2025-01-01T00:00:00") "Z" 3
        (fun _ => Outcome.status 200 "ok")).1 ≠
      .raised (.ValidationError "Payload size exceeds 1MB") ∧
    (Client.log "lv_test_k" "a.b" Option.none Option.none Option.none
        Option.none (some (repA 1048439)) (some "2025-01-01T00:00:00") "Z" 3
        (fun _ => Outcome.status 200 "ok")).2 ≠ [] := by
  obtain ⟨body, hd, hlen⟩ :=
    dumps_syncPayload_len (repA 1048439) (escString_repA 1048439)
  have hlen2 : body.length = 1048575 := by
    rw [hlen, repA_length]
  have h := c4_size_limit_amended.2.1 "lv_test_k" "a.b" Option.none
    Option.none Option.none Option.none (some (repA 1048439))
    (some "2025-01-01T00:00:00") "Z" 3 (fun _ => Outcome.status 200 "ok")
    body (by decide) hd (by omega)
  exact ⟨⟨body, hd, hlen2⟩, h.1, h.2⟩

/-- C4 counterexample: the claim as stated is false for the async
executor — a submission whose serialized form is 1048625 characters
(well over 1 MiB) does not fail with `ValidationError`: the async
executor has no size check, sends the request, and returns the 200
response body. -/
theorem c4_counterexample :
    (∃ body, dumps (PyVal.dict (AsyncClient.buildPayload "a.b"
        [("message", PyVal.str (repA 1048577))])) = some body ∧
      body.length = 1048625 ∧ 1024 * 1024 < body.length) ∧
    (AsyncClient.log "lv_test_k" "a.b"
        [("message", PyVal.str (repA 1048577))] 3
        (fun _ => Outcome.status 200 "ok")).1 = .returned (some "ok") ∧
    (AsyncClient.log "lv_test_k" "a.b"
        [("message", PyVal.str (repA 1048577))] 3
        (fun _ => Outcome.status 200 "ok")).2.length = 1 := by
  obtain ⟨body, hd, hlen⟩ :=
    dumps_asyncPayload_len (repA 1048577) (escString_repA 1048577)
  have hlen2 : body.length = 1048625 := by
    rw [hlen, repA_length]
  have ha : actionOk "a.b" = true := by decide
  have hml : AsyncClient.attemptLoop 3 (fun _ => Outcome.status 200 "ok") 0 =
      (.returned (some "ok"), 1) := by
    rw [AsyncClient.attemptLoop]
    norm_num
  refine ⟨⟨body, hd, hlen2, by omega⟩, ?_, ?_⟩
  · simp [AsyncClient.log, ha, hd, hml]
  · simp [AsyncClient.log, ha, hd, hml]

end LogVault
